import Mathlib

/-!
Verification development for the KiteSQL query-processing core.

The definitions below are a shallow embedding of the repository sources:

* `src/types/evaluator/mod.rs` — the evaluator factory and the evaluator
  bodies generated by the `numeric_binary_evaluator_definition` and
  `numeric_unary_evaluator_definition` macros;
* `src/expression/mod.rs` — `ScalarExpression`, `return_type`,
  `output_name`, `output_column`, `referenced_columns`, the
  `BindEvaluator` and `HasCountStar` visitors;
* `src/expression/simplify.rs` — `ConstantCalculator`, `Simplify`,
  `unpack_val`, `unpack_col`;
* `src/optimizer/rule/normalization/column_pruning.rs` — `clear_exprs`
  and the `Aggregate` arm of `ColumnPruning::_apply`;
* `src/optimizer/rule/normalization/simplification.rs` —
  `SimplifyFilter::apply`;
* `src/binder/alter_table.rs` — `Binder::bind_alter_table`.

Machine integers are embedded as `Int` with explicit range checks.
Rust `f64`/`f32` payloads, `rust_decimal::Decimal` payloads, and the
repository modules that are not part of the sources at hand (for example
`types/value.rs`, the per-type evaluator submodules, the visitor walkers)
are modelled; every such definition carries a doc comment saying so.
-/

set_option maxHeartbeats 4000000

namespace KiteSQL

/-- Model of the character-length unit discriminator carried by string
types and values (`sqlparser::ast::CharLengthUnits`, an external crate). -/
inductive CharLengthUnits where
  | characters
  | octets
deriving DecidableEq, Repr

/-- Model of `Utf8Type` from `types/value.rs` (file not among the sources
at hand): a string value is either variable-length with an optional cap or
fixed-length. Only `Variable(None)` appears in the sources at hand. -/
inductive Utf8Type where
  | variable (cap : Option Nat)
  | fixed (len : Nat)
deriving DecidableEq, Repr

/-- Abstract carrier for Rust `f32` values. Floating-point payloads are
modelled as a free term algebra: the embedding never needs to decide any
identity between float computations, only to track which computation a
value came from. -/
inductive F32 where
  | ofInt (i : Int)
  | add (a b : F32)
  | sub (a b : F32)
  | mul (a b : F32)
  | div (a b : F32)
  | neg (a : F32)
deriving DecidableEq, Repr

/-- Abstract carrier for Rust `f64` values, as for `F32`. `ofInt i`
models the Rust cast `i as f64` applied to an integer payload. -/
inductive F64 where
  | ofInt (i : Int)
  | ofF32 (f : F32)
  | add (a b : F64)
  | sub (a b : F64)
  | mul (a b : F64)
  | div (a b : F64)
  | neg (a : F64)
deriving DecidableEq, Repr

/-- Abstract carrier for `rust_decimal::Decimal` payloads (an external
crate). `prim m s` is a literal with mantissa and scale; the arithmetic
constructors track computations without interpreting them. -/
inductive Dec where
  | prim (mantissa : Int) (scale : Nat)
  | add (a b : Dec)
  | sub (a b : Dec)
  | mul (a b : Dec)
  | div (a b : Dec)
  | rem (a b : Dec)
deriving DecidableEq, Repr

mutual
/-- The logical type lattice, from `types/mod.rs` (file not among the
sources at hand; the variant list is fixed by the dispatch in
`EvaluatorFactory::binary_create` in `src/types/evaluator/mod.rs` and by
spec section 3). Tuple element lists use the mutual `LTList` so that all
recursion over types is structural. -/
inductive LogicalType where
  | sqlNull
  | boolean
  | tinyint
  | smallint
  | integer
  | bigint
  | uTinyint
  | uSmallint
  | uInteger
  | uBigint
  | float
  | double
  | char (len : Nat) (unit : CharLengthUnits)
  | varchar (cap : Option Nat) (unit : CharLengthUnits)
  | date
  | dateTime
  | time (scale : Option Nat)
  | timeStamp (scale : Option Nat) (zone : Bool)
  | decimal (precision : Option Nat) (scale : Option Nat)
  | tuple (tys : LTList)
deriving DecidableEq, Repr

/-- Cons-list of `LogicalType`, kept mutual with it so that structural
recursion and decidable equality are available. -/
inductive LTList where
  | nil
  | cons (ty : LogicalType) (tys : LTList)
deriving DecidableEq, Repr
end

mutual
/-- Model of `DataValue` from `types/value.rs` (file not among the sources
at hand; the variant list is fixed by the uses in the sources at hand and
by spec section 3). Integer payloads are `Int` with the width enforced by
range checks in the operations; float and decimal payloads use the
abstract carriers above. -/
inductive DataValue where
  | null
  | boolean (b : Bool)
  | int8 (v : Int)
  | int16 (v : Int)
  | int32 (v : Int)
  | int64 (v : Int)
  | uint8 (v : Int)
  | uint16 (v : Int)
  | uint32 (v : Int)
  | uint64 (v : Int)
  | float32 (v : F32)
  | float64 (v : F64)
  | utf8 (value : String) (ty : Utf8Type) (unit : CharLengthUnits)
  | date (days : Int)
  | dateTime (v : Int)
  | time32 (v : Int) (scale : Nat)
  | time64 (v : Int) (scale : Nat) (zone : Bool)
  | decimal (v : Dec)
  | tupleV (vs : DVList)
deriving DecidableEq, Repr

/-- Cons-list of `DataValue`, mutual with it for structural recursion. -/
inductive DVList where
  | nil
  | cons (v : DataValue) (vs : DVList)
deriving DecidableEq, Repr
end

/-- Model of `UnaryOperator` from `src/expression/mod.rs`. -/
inductive UnaryOperator where
  | plus
  | minus
  | not
deriving DecidableEq, Repr

/-- Model of `BinaryOperator` from `src/expression/mod.rs`. -/
inductive BinaryOperator where
  | plus
  | minus
  | multiply
  | divide
  | modulo
  | stringConcat
  | gt
  | lt
  | gtEq
  | ltEq
  | spaceship
  | eq
  | notEq
  | like (escape : Option Char)
  | notLike (escape : Option Char)
  | and
  | or
deriving DecidableEq, Repr

/-- Model of the `DatabaseError` variants reached by the embedded code
(`errors.rs` is not among the sources at hand; the variants and their
payloads are fixed by the uses in the sources at hand). The last three
constructors are artifacts of the embedding, not source variants:
`rustPanic` marks control paths on which the Rust code panics (for
example remainder by zero), `unreachableEval` marks the
`unreachable_unchecked` arms of the evaluators, and `outOfFuel` marks
exhaustion of the fuel that makes the `Simplify` visitor total. -/
inductive DatabaseError where
  | overFlow
  | unsupportedBinaryOperator (ty : LogicalType) (op : BinaryOperator)
  | unsupportedUnaryOperator (ty : LogicalType) (op : UnaryOperator)
  | unsupportedStmt (msg : String)
  | tableNotFound
  | invalidColumn (msg : String)
  | castFail
  | rustPanic (msg : String)
  | unreachableEval
  | outOfFuel
deriving DecidableEq, Repr

/-- True exactly on the null value. -/
def DataValue.isNull : DataValue → Bool
  | .null => true
  | _ => false

/-- Model of `DataValue::utf8()` (from `types/value.rs`, not among the
sources at hand): the string payload of a string value, otherwise none. -/
def DataValue.utf8? : DataValue → Option String
  | .utf8 value _ _ => some value
  | _ => none

mutual
/-- Model of `DataValue::logical_type()` (from `types/value.rs`, not
among the sources at hand): the logical type implied by a value, per the
correspondence of spec section 3. -/
def DataValue.logicalType : DataValue → LogicalType
  | .null => .sqlNull
  | .boolean _ => .boolean
  | .int8 _ => .tinyint
  | .int16 _ => .smallint
  | .int32 _ => .integer
  | .int64 _ => .bigint
  | .uint8 _ => .uTinyint
  | .uint16 _ => .uSmallint
  | .uint32 _ => .uInteger
  | .uint64 _ => .uBigint
  | .float32 _ => .float
  | .float64 _ => .double
  | .utf8 _ ty unit =>
    match ty with
    | .variable cap => .varchar cap unit
    | .fixed len => .char len unit
  | .date _ => .date
  | .dateTime _ => .dateTime
  | .time32 _ scale => .time (some scale)
  | .time64 _ scale zone => .timeStamp (some scale) zone
  | .decimal _ => .decimal none none
  | .tupleV vs => .tuple (DVList.logicalTypes vs)

/-- Elementwise `logicalType` of a value list. -/
def DVList.logicalTypes : DVList → LTList
  | .nil => .nil
  | .cons v vs => .cons v.logicalType (DVList.logicalTypes vs)
end

/-- Model of `LogicalType::is_unsigned_numeric()` (from `types/mod.rs`,
not among the sources at hand; the four unsigned types are listed in the
`TypeCast` insertion of `BindEvaluator::visit_unary`). -/
def LogicalType.is_unsigned_numeric : LogicalType → Bool
  | .uTinyint | .uSmallint | .uInteger | .uBigint => true
  | _ => false

/-- True on the numeric types of the lattice; helper for the modelled
`max_logical_type`. -/
def LogicalType.isNumericTy : LogicalType → Bool
  | .tinyint | .smallint | .integer | .bigint
  | .uTinyint | .uSmallint | .uInteger | .uBigint
  | .float | .double | .decimal _ _ => true
  | _ => false

/-- Numeric promotion rank; helper for the modelled `max_logical_type`. -/
def LogicalType.numericRank : LogicalType → Nat
  | .uTinyint => 1
  | .tinyint => 2
  | .uSmallint => 3
  | .smallint => 4
  | .uInteger => 5
  | .integer => 6
  | .uBigint => 7
  | .bigint => 8
  | .float => 9
  | .double => 10
  | .decimal _ _ => 11
  | _ => 0

/-- Modelled from the spec: `LogicalType::max_logical_type` (from
`types/mod.rs`, not among the sources at hand). Spec section 3: the join
of the type lattice, with `Int32 ⊔ Int64 = Int64` and
`numeric ⊔ null = numeric`; equal types join to themselves, the null type
is the bottom, numeric types join by promotion rank, and incompatible
pairs are an error. -/
def LogicalType.max_logical_type (a b : LogicalType) :
    Except DatabaseError LogicalType :=
  if a = b then .ok a
  else if a = .sqlNull then .ok b
  else if b = .sqlNull then .ok a
  else if a.isNumericTy && b.isNumericTy then
    if a.numericRank ≤ b.numericRank then .ok b else .ok a
  else .error .castFail

theorem LogicalType.max_logical_type_self (a : LogicalType) :
    LogicalType.max_logical_type a a = .ok a := by
  simp [LogicalType.max_logical_type]

/-! ### Evaluator identities

The evaluator structs of `src/types/evaluator/` are zero-sized types whose
identity is the pair of a value class and an operation; they are embedded
as the inductive `BinaryEvaluator` / `UnaryEvaluator` below. -/

/-- The value classes for which `numeric_binary_evaluator!` dispatch arms
exist in `EvaluatorFactory::binary_create`. -/
inductive NumericCls where
  | int8 | int16 | int32 | int64
  | uint8 | uint16 | uint32 | uint64
  | float32 | float64
  | date | dateTime
  | decimal
deriving DecidableEq, Repr

/-- The eleven operations generated by `numeric_binary_evaluator_definition`. -/
inductive NumericBinOp where
  | plus | minus | multiply | divide
  | gt | gtEq | lt | ltEq | eq | notEq
  | modulo
deriving DecidableEq, Repr

/-- The six comparison operations of the timestamp and tuple evaluators. -/
inductive CmpBinOp where
  | gt | gtEq | lt | ltEq | eq | notEq
deriving DecidableEq, Repr

/-- The operations of the `Time` evaluators created for `LogicalType::Time`. -/
inductive TimeBinOp where
  | plus | minus
  | gt | gtEq | lt | ltEq | eq | notEq
deriving DecidableEq, Repr

/-- The operations of the `Utf8` evaluators other than like and not-like. -/
inductive Utf8BinOp where
  | gt | lt | gtEq | ltEq | eq | notEq | stringConcat
deriving DecidableEq, Repr

/-- Identity of a binary evaluator object, following the struct names of
`src/types/evaluator/`: `numeric cls op` stands for the macro-generated
struct `[<cls op BinaryEvaluator>]`, and the remaining constructors stand
for the hand-written structs of the boolean, utf8, time, timestamp, null
and tuple modules. -/
inductive BinaryEvaluator where
  | numeric (cls : NumericCls) (op : NumericBinOp)
  | timeEv (op : TimeBinOp)
  | time64Ev (op : CmpBinOp)
  | booleanAnd
  | booleanOr
  | booleanEq
  | booleanNotEq
  | utf8Ev (op : Utf8BinOp)
  | utf8Like (escape : Option Char)
  | utf8NotLike (escape : Option Char)
  | nullEv
  | tupleEv (op : CmpBinOp)
deriving DecidableEq, Repr

/-- Identity of a unary evaluator object: `numericPlus`/`numericMinus`
stand for the macro-generated `[<cls PlusUnaryEvaluator>]` and
`[<cls MinusUnaryEvaluator>]`, and `booleanNot` for
`BooleanNotUnaryEvaluator`. -/
inductive UnaryEvaluator where
  | numericPlus (cls : NumericCls)
  | numericMinus (cls : NumericCls)
  | booleanNot
deriving DecidableEq, Repr

namespace EvaluatorFactory

/-- Expansion of the `numeric_binary_evaluator!` dispatch macro of
`src/types/evaluator/mod.rs` at a given value class: the eleven supported
operators map to the macro-generated evaluator structs, everything else is
`UnsupportedBinaryOperator(ty, op)`. -/
def numericBinaryDispatch (cls : NumericCls) (op : BinaryOperator)
    (ty : LogicalType) : Except DatabaseError BinaryEvaluator :=
  match op with
  | .plus => .ok (.numeric cls .plus)
  | .minus => .ok (.numeric cls .minus)
  | .multiply => .ok (.numeric cls .multiply)
  | .divide => .ok (.numeric cls .divide)
  | .gt => .ok (.numeric cls .gt)
  | .gtEq => .ok (.numeric cls .gtEq)
  | .lt => .ok (.numeric cls .lt)
  | .ltEq => .ok (.numeric cls .ltEq)
  | .eq => .ok (.numeric cls .eq)
  | .notEq => .ok (.numeric cls .notEq)
  | .modulo => .ok (.numeric cls .modulo)
  | _ => .error (.unsupportedBinaryOperator ty op)

/-- Embedding of `EvaluatorFactory::binary_create` from
`src/types/evaluator/mod.rs`, arm for arm. -/
def binary_create (ty : LogicalType) (op : BinaryOperator) :
    Except DatabaseError BinaryEvaluator :=
  match ty with
  | .tinyint => numericBinaryDispatch .int8 op .tinyint
  | .smallint => numericBinaryDispatch .int16 op .smallint
  | .integer => numericBinaryDispatch .int32 op .integer
  | .bigint => numericBinaryDispatch .int64 op .bigint
  | .uTinyint => numericBinaryDispatch .uint8 op .uTinyint
  | .uSmallint => numericBinaryDispatch .uint16 op .uSmallint
  | .uInteger => numericBinaryDispatch .uint32 op .uInteger
  | .uBigint => numericBinaryDispatch .uint64 op .uBigint
  | .float => numericBinaryDispatch .float32 op .float
  | .double => numericBinaryDispatch .float64 op .double
  | .date => numericBinaryDispatch .date op .date
  | .dateTime => numericBinaryDispatch .dateTime op .dateTime
  | .time s =>
    match op with
    | .plus => .ok (.timeEv .plus)
    | .minus => .ok (.timeEv .minus)
    | .gt => .ok (.timeEv .gt)
    | .gtEq => .ok (.timeEv .gtEq)
    | .lt => .ok (.timeEv .lt)
    | .ltEq => .ok (.timeEv .ltEq)
    | .eq => .ok (.timeEv .eq)
    | .notEq => .ok (.timeEv .notEq)
    | _ => .error (.unsupportedBinaryOperator (.time s) op)
  | .timeStamp s z =>
    match op with
    | .gt => .ok (.time64Ev .gt)
    | .gtEq => .ok (.time64Ev .gtEq)
    | .lt => .ok (.time64Ev .lt)
    | .ltEq => .ok (.time64Ev .ltEq)
    | .eq => .ok (.time64Ev .eq)
    | .notEq => .ok (.time64Ev .notEq)
    | _ => .error (.unsupportedBinaryOperator (.timeStamp s z) op)
  | .decimal p s => numericBinaryDispatch .decimal op (.decimal p s)
  | .boolean =>
    match op with
    | .and => .ok .booleanAnd
    | .or => .ok .booleanOr
    | .eq => .ok .booleanEq
    | .notEq => .ok .booleanNotEq
    | _ => .error (.unsupportedBinaryOperator .boolean op)
  | .varchar cap unit =>
    match op with
    | .gt => .ok (.utf8Ev .gt)
    | .lt => .ok (.utf8Ev .lt)
    | .gtEq => .ok (.utf8Ev .gtEq)
    | .ltEq => .ok (.utf8Ev .ltEq)
    | .eq => .ok (.utf8Ev .eq)
    | .notEq => .ok (.utf8Ev .notEq)
    | .stringConcat => .ok (.utf8Ev .stringConcat)
    | .like escape => .ok (.utf8Like escape)
    | .notLike escape => .ok (.utf8NotLike escape)
    | _ => .error (.unsupportedBinaryOperator (.varchar cap unit) op)
  | .char len unit =>
    match op with
    | .gt => .ok (.utf8Ev .gt)
    | .lt => .ok (.utf8Ev .lt)
    | .gtEq => .ok (.utf8Ev .gtEq)
    | .ltEq => .ok (.utf8Ev .ltEq)
    | .eq => .ok (.utf8Ev .eq)
    | .notEq => .ok (.utf8Ev .notEq)
    | .stringConcat => .ok (.utf8Ev .stringConcat)
    | .like escape => .ok (.utf8Like escape)
    | .notLike escape => .ok (.utf8NotLike escape)
    | _ => .error (.unsupportedBinaryOperator (.char len unit) op)
  | .sqlNull => .ok .nullEv
  | .tuple tys =>
    match op with
    | .eq => .ok (.tupleEv .eq)
    | .notEq => .ok (.tupleEv .notEq)
    | .gt => .ok (.tupleEv .gt)
    | .gtEq => .ok (.tupleEv .gtEq)
    | .lt => .ok (.tupleEv .lt)
    | .ltEq => .ok (.tupleEv .ltEq)
    | _ => .error (.unsupportedBinaryOperator (.tuple tys) op)

/-- Embedding of `EvaluatorFactory::unary_create` from
`src/types/evaluator/mod.rs`, arm for arm; the `numeric_unary_evaluator!`
macro is expanded in place. -/
def unary_create (ty : LogicalType) (op : UnaryOperator) :
    Except DatabaseError UnaryEvaluator :=
  match ty with
  | .tinyint =>
    match op with
    | .plus => .ok (.numericPlus .int8)
    | .minus => .ok (.numericMinus .int8)
    | _ => .error (.unsupportedUnaryOperator .tinyint op)
  | .smallint =>
    match op with
    | .plus => .ok (.numericPlus .int16)
    | .minus => .ok (.numericMinus .int16)
    | _ => .error (.unsupportedUnaryOperator .smallint op)
  | .integer =>
    match op with
    | .plus => .ok (.numericPlus .int32)
    | .minus => .ok (.numericMinus .int32)
    | _ => .error (.unsupportedUnaryOperator .integer op)
  | .bigint =>
    match op with
    | .plus => .ok (.numericPlus .int64)
    | .minus => .ok (.numericMinus .int64)
    | _ => .error (.unsupportedUnaryOperator .bigint op)
  | .boolean =>
    match op with
    | .not => .ok .booleanNot
    | _ => .error (.unsupportedUnaryOperator .boolean op)
  | .float =>
    match op with
    | .plus => .ok (.numericPlus .float32)
    | .minus => .ok (.numericMinus .float32)
    | _ => .error (.unsupportedUnaryOperator .float op)
  | .double =>
    match op with
    | .plus => .ok (.numericPlus .float64)
    | .minus => .ok (.numericMinus .float64)
    | _ => .error (.unsupportedUnaryOperator .double op)
  | _ => .error (.unsupportedUnaryOperator ty op)

end EvaluatorFactory

/-! ### Evaluator semantics -/

/-- Range check shared by the integer classes: the payload an operation
may return, or `none` on overflow — the embedding of `checked_add`,
`checked_sub` and `checked_mul` over a fixed-width integer. -/
def checkedInt (lo hi r : Int) : Option Int :=
  if lo ≤ r ∧ r ≤ hi then some r else none

/-- Per-class payload accessors for the integer-like classes. -/
def NumericCls.getInt? : NumericCls → DataValue → Option Int
  | .int8, .int8 v => some v
  | .int16, .int16 v => some v
  | .int32, .int32 v => some v
  | .int64, .int64 v => some v
  | .uint8, .uint8 v => some v
  | .uint16, .uint16 v => some v
  | .uint32, .uint32 v => some v
  | .uint64, .uint64 v => some v
  | .date, .date v => some v
  | .dateTime, .dateTime v => some v
  | _, _ => none

/-- Per-class constructors for the integer-like classes. -/
def NumericCls.mkInt : NumericCls → Int → DataValue
  | .int8, v => .int8 v
  | .int16, v => .int16 v
  | .int32, v => .int32 v
  | .int64, v => .int64 v
  | .uint8, v => .uint8 v
  | .uint16, v => .uint16 v
  | .uint32, v => .uint32 v
  | .uint64, v => .uint64 v
  | .date, v => .date v
  | .dateTime, v => .dateTime v
  | _, _ => .null

/-- Smallest representable payload of an integer-like class (`Date`
carries an `i32` day count and `DateTime` an `i64`, per spec section 3). -/
def NumericCls.intLo : NumericCls → Int
  | .int8 => -(2 ^ 7)
  | .int16 => -(2 ^ 15)
  | .int32 => -(2 ^ 31)
  | .int64 => -(2 ^ 63)
  | .date => -(2 ^ 31)
  | .dateTime => -(2 ^ 63)
  | _ => 0

/-- Largest representable payload of an integer-like class. -/
def NumericCls.intHi : NumericCls → Int
  | .int8 => 2 ^ 7 - 1
  | .int16 => 2 ^ 15 - 1
  | .int32 => 2 ^ 31 - 1
  | .int64 => 2 ^ 63 - 1
  | .uint8 => 2 ^ 8 - 1
  | .uint16 => 2 ^ 16 - 1
  | .uint32 => 2 ^ 32 - 1
  | .uint64 => 2 ^ 64 - 1
  | .date => 2 ^ 31 - 1
  | .dateTime => 2 ^ 63 - 1
  | _ => 0

/-- True on the eight signed and unsigned machine-integer classes. -/
def NumericCls.isMachineInt : NumericCls → Bool
  | .int8 | .int16 | .int32 | .int64
  | .uint8 | .uint16 | .uint32 | .uint64 => true
  | _ => false

/-- The fallback arms of every macro-generated evaluator body: the source
matches `(compute _, Null) | (Null, compute _) | (Null, Null)` to the null
value and reaches `unreachable_unchecked()` on anything else (embedded as
the error `unreachableEval`). `matchesCls` decides whether a value matches
the compute constructor of the class. -/
def macroFallback (matchesCls : DataValue → Bool) (left right : DataValue) :
    Except DatabaseError DataValue :=
  if (matchesCls left || left.isNull) && (matchesCls right || right.isNull)
      && (left.isNull || right.isNull)
  then .ok .null
  else .error .unreachableEval

/-- Embedding of the eleven `binary_eval` bodies generated by the source
macro `numeric_binary_evaluator_definition` at an integer compute type
with range `lo..=hi`: `Plus`, `Minus` and `Multiply` go through the
checked operations and fail with `OverFlow` when the exact result is out
of range; `Divide` casts both operands to `f64` and divides; the
comparisons produce booleans; `Mod` applies the unchecked Rust `%`
operator, which panics on a zero divisor (embedded as `rustPanic`) and
otherwise truncates toward zero (`Int.tmod`; on release-profile overflow
`i::MIN % -1` this also agrees with the wrapped result `0`). -/
def intMacroBinaryEval (get? : DataValue → Option Int) (mk : Int → DataValue)
    (lo hi : Int) (op : NumericBinOp) (left right : DataValue) :
    Except DatabaseError DataValue :=
  match get? left, get? right with
  | some v1, some v2 =>
    match op with
    | .plus =>
      match checkedInt lo hi (v1 + v2) with
      | some v => .ok (mk v)
      | none => .error .overFlow
    | .minus =>
      match checkedInt lo hi (v1 - v2) with
      | some v => .ok (mk v)
      | none => .error .overFlow
    | .multiply =>
      match checkedInt lo hi (v1 * v2) with
      | some v => .ok (mk v)
      | none => .error .overFlow
    | .divide => .ok (.float64 (F64.div (F64.ofInt v1) (F64.ofInt v2)))
    | .gt => .ok (.boolean (decide (v2 < v1)))
    | .gtEq => .ok (.boolean (decide (v2 ≤ v1)))
    | .lt => .ok (.boolean (decide (v1 < v2)))
    | .ltEq => .ok (.boolean (decide (v1 ≤ v2)))
    | .eq => .ok (.boolean (decide (v1 = v2)))
    | .notEq => .ok (.boolean (decide (v1 ≠ v2)))
    | .modulo =>
      if v2 = 0 then .error (.rustPanic "attempt to calculate the remainder with a divisor of zero")
      else .ok (mk (Int.tmod v1 v2))
  | _, _ => macroFallback (fun v => (get? v).isSome) left right

/-- Abstract stand-in for the bit-canonical total order of
`ordered_float::OrderedFloat` over `f32` payloads: the float modules are
not among the sources at hand and float comparison results are not load
bearing for any claim, so the order is modelled as the syntactic order of
the free carrier. -/
def F32.cmp (a b : F32) : Ordering := compare (repr a).pretty (repr b).pretty

/-- Abstract stand-in ordering for `f64` payloads, as for `F32.cmp`. -/
def F64.cmp (a b : F64) : Ordering := compare (repr a).pretty (repr b).pretty

/-- Abstract stand-in ordering for decimal payloads, as for `F32.cmp`
(`rust_decimal` is an external crate). -/
def Dec.cmp (a b : Dec) : Ordering := compare (repr a).pretty (repr b).pretty

/-- Turn an ordering into the boolean a comparison operator returns. -/
def CmpBinOp.ofOrdering : CmpBinOp → Ordering → Bool
  | .gt, o => o == .gt
  | .gtEq, o => o == .gt || o == .eq
  | .lt, o => o == .lt
  | .ltEq, o => o == .lt || o == .eq
  | .eq, o => o == .eq
  | .notEq, o => !(o == .eq)

/-- The comparison boolean for a `NumericBinOp`, or none for the
arithmetic operations. -/
def NumericBinOp.cmpOf : NumericBinOp → Option CmpBinOp
  | .gt => some .gt
  | .gtEq => some .gtEq
  | .lt => some .lt
  | .ltEq => some .ltEq
  | .eq => some .eq
  | .notEq => some .notEq
  | _ => none

/-- Modelled from the spec: `binary_eval` of the `Float32` evaluators
(`types/evaluator/float32.rs` is not among the sources at hand). Null
operands make the result null; arithmetic is total over the abstract
carrier; comparisons use the abstract total order. -/
def float32BinaryEval (op : NumericBinOp) (left right : DataValue) :
    Except DatabaseError DataValue :=
  match left, right with
  | .float32 v1, .float32 v2 =>
    match op with
    | .plus => .ok (.float32 (.add v1 v2))
    | .minus => .ok (.float32 (.sub v1 v2))
    | .multiply => .ok (.float32 (.mul v1 v2))
    | .divide => .ok (.float32 (.div v1 v2))
    | .modulo => .ok (.float32 (.sub v1 (.mul (.div v1 v2) v2)))
    | .gt => .ok (.boolean (CmpBinOp.ofOrdering .gt (F32.cmp v1 v2)))
    | .gtEq => .ok (.boolean (CmpBinOp.ofOrdering .gtEq (F32.cmp v1 v2)))
    | .lt => .ok (.boolean (CmpBinOp.ofOrdering .lt (F32.cmp v1 v2)))
    | .ltEq => .ok (.boolean (CmpBinOp.ofOrdering .ltEq (F32.cmp v1 v2)))
    | .eq => .ok (.boolean (CmpBinOp.ofOrdering .eq (F32.cmp v1 v2)))
    | .notEq => .ok (.boolean (CmpBinOp.ofOrdering .notEq (F32.cmp v1 v2)))
  | _, _ =>
    macroFallback (fun v => match v with | .float32 _ => true | _ => false)
      left right

/-- Modelled from the spec: `binary_eval` of the `Float64` evaluators
(`types/evaluator/float64.rs` is not among the sources at hand), as for
`float32BinaryEval`. -/
def float64BinaryEval (op : NumericBinOp) (left right : DataValue) :
    Except DatabaseError DataValue :=
  match left, right with
  | .float64 v1, .float64 v2 =>
    match op with
    | .plus => .ok (.float64 (.add v1 v2))
    | .minus => .ok (.float64 (.sub v1 v2))
    | .multiply => .ok (.float64 (.mul v1 v2))
    | .divide => .ok (.float64 (.div v1 v2))
    | .modulo => .ok (.float64 (.sub v1 (.mul (.div v1 v2) v2)))
    | .gt => .ok (.boolean (CmpBinOp.ofOrdering .gt (F64.cmp v1 v2)))
    | .gtEq => .ok (.boolean (CmpBinOp.ofOrdering .gtEq (F64.cmp v1 v2)))
    | .lt => .ok (.boolean (CmpBinOp.ofOrdering .lt (F64.cmp v1 v2)))
    | .ltEq => .ok (.boolean (CmpBinOp.ofOrdering .ltEq (F64.cmp v1 v2)))
    | .eq => .ok (.boolean (CmpBinOp.ofOrdering .eq (F64.cmp v1 v2)))
    | .notEq => .ok (.boolean (CmpBinOp.ofOrdering .notEq (F64.cmp v1 v2)))
  | _, _ =>
    macroFallback (fun v => match v with | .float64 _ => true | _ => false)
      left right

/-- Modelled from the spec: `binary_eval` of the `Decimal` evaluators
(`types/evaluator/decimal.rs` is not among the sources at hand;
`rust_decimal` is an external crate). Null operands make the result null;
the arithmetic results are tracked by the free carrier; comparisons use
the abstract total order. -/
def decimalBinaryEval (op : NumericBinOp) (left right : DataValue) :
    Except DatabaseError DataValue :=
  match left, right with
  | .decimal v1, .decimal v2 =>
    match op with
    | .plus => .ok (.decimal (.add v1 v2))
    | .minus => .ok (.decimal (.sub v1 v2))
    | .multiply => .ok (.decimal (.mul v1 v2))
    | .divide => .ok (.decimal (.div v1 v2))
    | .modulo => .ok (.decimal (.rem v1 v2))
    | .gt => .ok (.boolean (CmpBinOp.ofOrdering .gt (Dec.cmp v1 v2)))
    | .gtEq => .ok (.boolean (CmpBinOp.ofOrdering .gtEq (Dec.cmp v1 v2)))
    | .lt => .ok (.boolean (CmpBinOp.ofOrdering .lt (Dec.cmp v1 v2)))
    | .ltEq => .ok (.boolean (CmpBinOp.ofOrdering .ltEq (Dec.cmp v1 v2)))
    | .eq => .ok (.boolean (CmpBinOp.ofOrdering .eq (Dec.cmp v1 v2)))
    | .notEq => .ok (.boolean (CmpBinOp.ofOrdering .notEq (Dec.cmp v1 v2)))
  | _, _ =>
    macroFallback (fun v => match v with | .decimal _ => true | _ => false)
      left right

/-- Dispatch of `binary_eval` over the numeric evaluator classes. -/
def numericBinaryEval (cls : NumericCls) (op : NumericBinOp)
    (left right : DataValue) : Except DatabaseError DataValue :=
  match cls with
  | .float32 => float32BinaryEval op left right
  | .float64 => float64BinaryEval op left right
  | .decimal => decimalBinaryEval op left right
  | c => intMacroBinaryEval (c.getInt?) (c.mkInt) (c.intLo) (c.intHi)
      op left right

/-- Modelled from the spec: scale normalization of the time evaluators
(`types/evaluator/time32.rs` and `time64.rs` are not among the sources at
hand). Spec section 4.1: operands are normalized to a common scale before
comparing. -/
def timeNormalize (v : Int) (scale target : Nat) : Int :=
  v * (10 : Int) ^ (target - scale)

/-- Modelled from the spec: `binary_eval` of the `Time` evaluators for
`LogicalType::Time`. Null operands make the result null; comparisons act
on scale-normalized payloads; addition and subtraction return null when
the normalized result does not fit the payload (spec: they may fail and
return null if the normalized scale is incompatible). -/
def timeBinaryEval (op : TimeBinOp) (left right : DataValue) :
    Except DatabaseError DataValue :=
  match left, right with
  | .time32 v1 s1, .time32 v2 s2 =>
    let s := max s1 s2
    let a := timeNormalize v1 s1 s
    let b := timeNormalize v2 s2 s
    match op with
    | .plus =>
      if a + b ≤ 2 ^ 32 - 1 then .ok (.time32 (a + b) s) else .ok .null
    | .minus =>
      if 0 ≤ a - b then .ok (.time32 (a - b) s) else .ok .null
    | .gt => .ok (.boolean (decide (b < a)))
    | .gtEq => .ok (.boolean (decide (b ≤ a)))
    | .lt => .ok (.boolean (decide (a < b)))
    | .ltEq => .ok (.boolean (decide (a ≤ b)))
    | .eq => .ok (.boolean (decide (a = b)))
    | .notEq => .ok (.boolean (decide (a ≠ b)))
  | _, _ =>
    macroFallback (fun v => match v with | .time32 _ _ => true | _ => false)
      left right

/-- Modelled from the spec: `binary_eval` of the `Time64` comparison
evaluators for `LogicalType::TimeStamp`, as for `timeBinaryEval`. -/
def time64BinaryEval (op : CmpBinOp) (left right : DataValue) :
    Except DatabaseError DataValue :=
  match left, right with
  | .time64 v1 s1 _, .time64 v2 s2 _ =>
    let s := max s1 s2
    let a := timeNormalize v1 s1 s
    let b := timeNormalize v2 s2 s
    .ok (.boolean (op.ofOrdering (compare a b)))
  | _, _ =>
    macroFallback (fun v => match v with | .time64 _ _ _ => true | _ => false)
      left right

/-- Modelled from the spec: SQL `LIKE` pattern matching over character
lists (`types/evaluator/utf8.rs` is not among the sources at hand).
An underscore matches one character, a percent sign any run, and a
character equal to the escape character makes the following pattern
character literal. -/
def likeChars (escape : Option Char) : List Char → List Char → Bool
  | [], [] => true
  | '%' :: ps, [] => likeChars escape ps []
  | _ :: _, [] => false
  | [], _ :: _ => false
  | p :: ps, c :: cs =>
    if escape = some p then
      match ps with
      | [] => false
      | q :: qs => q = c && likeChars escape qs cs
    else if p = '%' then
      likeChars escape ps (c :: cs) || likeChars escape (p :: ps) cs
    else if p = '_' then likeChars escape ps cs
    else p = c && likeChars escape ps cs
termination_by ps s => ps.length + s.length

/-- Modelled from the spec: `LIKE` over string values. -/
def likeMatch (escape : Option Char) (value pattern : String) : Bool :=
  likeChars escape pattern.toList value.toList

/-- Modelled from the spec: `binary_eval` of the `Utf8` evaluators
(`types/evaluator/utf8.rs` is not among the sources at hand). Null
operands make the result null; ordering is lexicographic on the string
payloads; concatenation keeps the type tag of the left operand. -/
def utf8BinaryEval (op : Utf8BinOp) (left right : DataValue) :
    Except DatabaseError DataValue :=
  match left, right with
  | .utf8 v1 ty unit, .utf8 v2 _ _ =>
    match op with
    | .gt => .ok (.boolean (decide (v2 < v1)))
    | .lt => .ok (.boolean (decide (v1 < v2)))
    | .gtEq => .ok (.boolean (decide (v2 ≤ v1)))
    | .ltEq => .ok (.boolean (decide (v1 ≤ v2)))
    | .eq => .ok (.boolean (v1 == v2))
    | .notEq => .ok (.boolean (v1 != v2))
    | .stringConcat => .ok (.utf8 (v1 ++ v2) ty unit)
  | _, _ =>
    macroFallback (fun v => match v with | .utf8 _ _ _ => true | _ => false)
      left right

/-- Modelled from the spec: `binary_eval` of the like evaluators. -/
def utf8LikeBinaryEval (negated : Bool) (escape : Option Char)
    (left right : DataValue) : Except DatabaseError DataValue :=
  match left, right with
  | .utf8 v1 _ _, .utf8 v2 _ _ =>
    let b := likeMatch escape v1 v2
    .ok (.boolean (if negated then !b else b))
  | _, _ =>
    macroFallback (fun v => match v with | .utf8 _ _ _ => true | _ => false)
      left right

/-- Modelled from the spec: `binary_eval` of `BooleanAndBinaryEvaluator`
(`types/evaluator/boolean.rs` is not among the sources at hand). Spec:
three-valued logic with `FALSE AND NULL = FALSE`. -/
def booleanAndBinaryEval (left right : DataValue) :
    Except DatabaseError DataValue :=
  match left, right with
  | .boolean a, .boolean b => .ok (.boolean (a && b))
  | .boolean false, .null => .ok (.boolean false)
  | .null, .boolean false => .ok (.boolean false)
  | .boolean true, .null => .ok .null
  | .null, .boolean true => .ok .null
  | .null, .null => .ok .null
  | _, _ => .error .unreachableEval

/-- Modelled from the spec: `binary_eval` of `BooleanOrBinaryEvaluator`;
three-valued logic with `TRUE OR NULL = TRUE`. -/
def booleanOrBinaryEval (left right : DataValue) :
    Except DatabaseError DataValue :=
  match left, right with
  | .boolean a, .boolean b => .ok (.boolean (a || b))
  | .boolean true, .null => .ok (.boolean true)
  | .null, .boolean true => .ok (.boolean true)
  | .boolean false, .null => .ok .null
  | .null, .boolean false => .ok .null
  | .null, .null => .ok .null
  | _, _ => .error .unreachableEval

/-- Modelled from the spec: `binary_eval` of the boolean equality
evaluators; null operands make the result null. -/
def booleanCmpBinaryEval (negated : Bool) (left right : DataValue) :
    Except DatabaseError DataValue :=
  match left, right with
  | .boolean a, .boolean b =>
    .ok (.boolean (if negated then a != b else a == b))
  | _, _ =>
    macroFallback (fun v => match v with | .boolean _ => true | _ => false)
      left right

mutual
/-- Modelled from the spec: lexicographic comparison of tuple values
(`types/evaluator/tuple.rs` is not among the sources at hand). Components
of different shapes fall back to the syntactic order of the carriers. -/
def dvCompare : DataValue → DataValue → Ordering
  | .tupleV vs, .tupleV us => dvCompareList vs us
  | .int8 a, .int8 b => compare a b
  | .int16 a, .int16 b => compare a b
  | .int32 a, .int32 b => compare a b
  | .int64 a, .int64 b => compare a b
  | .uint8 a, .uint8 b => compare a b
  | .uint16 a, .uint16 b => compare a b
  | .uint32 a, .uint32 b => compare a b
  | .uint64 a, .uint64 b => compare a b
  | .boolean a, .boolean b => compare a b
  | .utf8 a _ _, .utf8 b _ _ => compare a b
  | .date a, .date b => compare a b
  | .dateTime a, .dateTime b => compare a b
  | a, b => compare (repr a).pretty (repr b).pretty

/-- Lexicographic extension of `dvCompare` to tuple payload lists. -/
def dvCompareList : DVList → DVList → Ordering
  | .nil, .nil => .eq
  | .nil, .cons _ _ => .lt
  | .cons _ _, .nil => .gt
  | .cons v vs, .cons u us =>
    match dvCompare v u with
    | .eq => dvCompareList vs us
    | o => o
end

/-- Modelled from the spec: `binary_eval` of the tuple comparison
evaluators; null operands make the result null, comparison is
lexicographic over component values. -/
def tupleBinaryEval (op : CmpBinOp) (left right : DataValue) :
    Except DatabaseError DataValue :=
  match left, right with
  | .tupleV vs, .tupleV us =>
    .ok (.boolean (op.ofOrdering (dvCompareList vs us)))
  | _, _ =>
    macroFallback (fun v => match v with | .tupleV _ => true | _ => false)
      left right

/-- Embedding of `BinaryEvaluator::binary_eval`, dispatching on the
evaluator identity. The macro-generated bodies follow
`src/types/evaluator/mod.rs`; the hand-written evaluator modules are not
among the sources at hand and are modelled from the spec
(`NullBinaryEvaluator` returns the null value for every operand pair —
every value of type `SqlNull` is null). -/
def BinaryEvaluator.binary_eval :
    BinaryEvaluator → DataValue → DataValue → Except DatabaseError DataValue
  | .numeric cls op, l, r => numericBinaryEval cls op l r
  | .timeEv op, l, r => timeBinaryEval op l r
  | .time64Ev op, l, r => time64BinaryEval op l r
  | .booleanAnd, l, r => booleanAndBinaryEval l r
  | .booleanOr, l, r => booleanOrBinaryEval l r
  | .booleanEq, l, r => booleanCmpBinaryEval false l r
  | .booleanNotEq, l, r => booleanCmpBinaryEval true l r
  | .utf8Ev op, l, r => utf8BinaryEval op l r
  | .utf8Like escape, l, r => utf8LikeBinaryEval false escape l r
  | .utf8NotLike escape, l, r => utf8LikeBinaryEval true escape l r
  | .nullEv, _, _ => .ok .null
  | .tupleEv op, l, r => tupleBinaryEval op l r

/-- Wrapped negation of an integer-class payload: the source macro
`numeric_unary_evaluator_definition` computes the unchecked Rust `-value`,
which on the release profile wraps `MIN` to itself. -/
def intNegWrap (lo hi v : Int) : Int := if hi < -v then lo else -v

/-- Embedding of `UnaryEvaluator::unary_eval` from the source macro
`numeric_unary_evaluator_definition` (in `src/types/evaluator/mod.rs`):
`Plus` clones the value, `Minus` negates the payload and maps null to
null. `BooleanNotUnaryEvaluator` is modelled from the spec (not among the
sources at hand): negation with null mapped to null. Values that do not
match the compute type reach `unreachable_unchecked`, embedded as
returning the null value (the unary trait is infallible). -/
def UnaryEvaluator.unary_eval : UnaryEvaluator → DataValue → DataValue
  | .numericPlus _, v => v
  | .numericMinus cls, v =>
    match cls, v with
    | .int8, .int8 a => .int8 (intNegWrap (NumericCls.intLo .int8) (NumericCls.intHi .int8) a)
    | .int16, .int16 a => .int16 (intNegWrap (NumericCls.intLo .int16) (NumericCls.intHi .int16) a)
    | .int32, .int32 a => .int32 (intNegWrap (NumericCls.intLo .int32) (NumericCls.intHi .int32) a)
    | .int64, .int64 a => .int64 (intNegWrap (NumericCls.intLo .int64) (NumericCls.intHi .int64) a)
    | .float32, .float32 a => .float32 (.neg a)
    | .float64, .float64 a => .float64 (.neg a)
    | _, .null => .null
    | _, _ => .null
  | .booleanNot, v =>
    match v with
    | .boolean b => .boolean (!b)
    | _ => .null

/-! ### Operand typing -/

/-- Whether a value matches the compute constructor of a numeric class. -/
def NumericCls.matchesVal : NumericCls → DataValue → Bool
  | .float32, v => match v with | .float32 _ => true | _ => false
  | .float64, v => match v with | .float64 _ => true | _ => false
  | .decimal, v => match v with | .decimal _ => true | _ => false
  | c, v => (c.getInt? v).isSome

/-- A value of the type a binary evaluator was created for: it matches the
compute constructor of the evaluator (for the null evaluator, every value
of the `SqlNull` type is the null value). -/
def BinaryEvaluator.isOperand : BinaryEvaluator → DataValue → Bool
  | .numeric cls _, v => cls.matchesVal v
  | .timeEv _, v => match v with | .time32 _ _ => true | _ => false
  | .time64Ev _, v => match v with | .time64 _ _ _ => true | _ => false
  | .booleanAnd, v | .booleanOr, v | .booleanEq, v | .booleanNotEq, v =>
    match v with | .boolean _ => true | _ => false
  | .utf8Ev _, v | .utf8Like _, v | .utf8NotLike _, v =>
    match v with | .utf8 _ _ _ => true | _ => false
  | .nullEv, v => v.isNull
  | .tupleEv _, v => match v with | .tupleV _ => true | _ => false

/-- The eight signed and unsigned machine-integer logical types, mapped to
their evaluator value class. -/
def LogicalType.intCls : LogicalType → Option NumericCls
  | .tinyint => some .int8
  | .smallint => some .int16
  | .integer => some .int32
  | .bigint => some .int64
  | .uTinyint => some .uint8
  | .uSmallint => some .uint16
  | .uInteger => some .uint32
  | .uBigint => some .uint64
  | _ => none

/-! ### Null propagation of the binary evaluators (claim C1) -/

theorem numericBinaryDispatch_not_andor (cls : NumericCls)
    (op : BinaryOperator) (ty : LogicalType) (ev : BinaryEvaluator)
    (hc : EvaluatorFactory.numericBinaryDispatch cls op ty = .ok ev) :
    ev ≠ .booleanAnd ∧ ev ≠ .booleanOr := by
  cases op <;> simp_all [EvaluatorFactory.numericBinaryDispatch] <;>
    subst hc <;> simp

theorem binary_create_not_andor (ty : LogicalType) (op : BinaryOperator)
    (ev : BinaryEvaluator)
    (hno : ¬(ty = .boolean ∧ (op = .and ∨ op = .or)))
    (hc : EvaluatorFactory.binary_create ty op = .ok ev) :
    ev ≠ .booleanAnd ∧ ev ≠ .booleanOr := by
  cases ty
  case boolean =>
    cases op <;> simp_all [EvaluatorFactory.binary_create] <;>
      subst hc <;> simp
  all_goals
    first
      | exact numericBinaryDispatch_not_andor _ _ _ _ hc
      | (cases op <;> simp_all [EvaluatorFactory.binary_create] <;>
          subst hc <;> simp)

theorem intMacroBinaryEval_nullProp (get? : DataValue → Option Int)
    (mk : Int → DataValue) (lo hi : Int) (op : NumericBinOp)
    (hnull : get? .null = none) (v : DataValue)
    (hv : (get? v).isSome = true) :
    intMacroBinaryEval get? mk lo hi op .null v = .ok .null ∧
    intMacroBinaryEval get? mk lo hi op v .null = .ok .null ∧
    intMacroBinaryEval get? mk lo hi op .null .null = .ok .null := by
  cases hgv : get? v with
  | none => simp [hgv] at hv
  | some a =>
    refine ⟨?_, ?_, ?_⟩ <;>
      simp [intMacroBinaryEval, hnull, hgv, macroFallback, DataValue.isNull]

/-- Null propagation for every binary evaluator other than the boolean
and and or evaluators: with a value of the evaluator type on the other
side (or none), a null operand makes the result the null value, with no
error. -/
theorem binary_eval_nullProp (ev : BinaryEvaluator)
    (hA : ev ≠ .booleanAnd) (hO : ev ≠ .booleanOr) (v : DataValue)
    (hv : ev.isOperand v = true) :
    ev.binary_eval .null v = .ok .null ∧
    ev.binary_eval v .null = .ok .null ∧
    ev.binary_eval .null .null = .ok .null := by
  cases ev with
  | numeric cls op =>
    cases cls with
    | float32 =>
      cases v <;> simp_all [BinaryEvaluator.isOperand, NumericCls.matchesVal,
        BinaryEvaluator.binary_eval, numericBinaryEval, float32BinaryEval,
        macroFallback, DataValue.isNull]
    | float64 =>
      cases v <;> simp_all [BinaryEvaluator.isOperand, NumericCls.matchesVal,
        BinaryEvaluator.binary_eval, numericBinaryEval, float64BinaryEval,
        macroFallback, DataValue.isNull]
    | decimal =>
      cases v <;> simp_all [BinaryEvaluator.isOperand, NumericCls.matchesVal,
        BinaryEvaluator.binary_eval, numericBinaryEval, decimalBinaryEval,
        macroFallback, DataValue.isNull]
    | _ =>
      exact intMacroBinaryEval_nullProp _ _ _ _ _ (by rfl) v hv
  | timeEv op =>
    cases v <;> simp_all [BinaryEvaluator.isOperand,
      BinaryEvaluator.binary_eval, timeBinaryEval, macroFallback,
      DataValue.isNull]
  | time64Ev op =>
    cases v <;> simp_all [BinaryEvaluator.isOperand,
      BinaryEvaluator.binary_eval, time64BinaryEval, macroFallback,
      DataValue.isNull]
  | booleanAnd => exact absurd rfl hA
  | booleanOr => exact absurd rfl hO
  | booleanEq =>
    cases v <;> simp_all [BinaryEvaluator.isOperand,
      BinaryEvaluator.binary_eval, booleanCmpBinaryEval, macroFallback,
      DataValue.isNull]
  | booleanNotEq =>
    cases v <;> simp_all [BinaryEvaluator.isOperand,
      BinaryEvaluator.binary_eval, booleanCmpBinaryEval, macroFallback,
      DataValue.isNull]
  | utf8Ev op =>
    cases v <;> simp_all [BinaryEvaluator.isOperand,
      BinaryEvaluator.binary_eval, utf8BinaryEval, macroFallback,
      DataValue.isNull]
  | utf8Like escape =>
    cases v <;> simp_all [BinaryEvaluator.isOperand,
      BinaryEvaluator.binary_eval, utf8LikeBinaryEval, macroFallback,
      DataValue.isNull]
  | utf8NotLike escape =>
    cases v <;> simp_all [BinaryEvaluator.isOperand,
      BinaryEvaluator.binary_eval, utf8LikeBinaryEval, macroFallback,
      DataValue.isNull]
  | nullEv => exact ⟨rfl, rfl, rfl⟩
  | tupleEv op =>
    cases v <;> simp_all [BinaryEvaluator.isOperand,
      BinaryEvaluator.binary_eval, tupleBinaryEval, macroFallback,
      DataValue.isNull]

/-- C1. Every binary evaluator created by `EvaluatorFactory::binary_create`
for a value-level operator other than boolean AND and OR maps a null
operand on either side (or both) to `Ok` of the null value, for every
value `v` of the type of the evaluator, with no error. -/
theorem C1_binary_evaluator_null_propagation (ty : LogicalType)
    (op : BinaryOperator) (ev : BinaryEvaluator) (v : DataValue)
    (hc : EvaluatorFactory.binary_create ty op = .ok ev)
    (hno : ¬(ty = .boolean ∧ (op = .and ∨ op = .or)))
    (hv : ev.isOperand v = true) :
    ev.binary_eval .null v = .ok .null ∧
    ev.binary_eval v .null = .ok .null ∧
    ev.binary_eval .null .null = .ok .null := by
  obtain ⟨hA, hO⟩ := binary_create_not_andor ty op ev hno hc
  exact binary_eval_nullProp ev hA hO v hv

theorem C1_binary_evaluator_null_propagation_witness :
    (BinaryEvaluator.numeric .int32 .plus).binary_eval .null (.int32 5) =
      .ok .null ∧
    (BinaryEvaluator.numeric .int32 .plus).binary_eval (.int32 5) .null =
      .ok .null ∧
    (BinaryEvaluator.numeric .int32 .plus).binary_eval .null .null =
      .ok .null :=
  C1_binary_evaluator_null_propagation .integer .plus _ (.int32 5) rfl
    (by simp) rfl

/-! ### Integer arithmetic overflow (claim C2) -/

/-- C2, counterexample. The claim asserts that the `Modulo` evaluator
either fails with `OverFlow` or returns `Ok` with the exact in-range
result; at operands `1 % 0` (type `Integer`) the evaluator instead hits
the unchecked Rust `%` operator and panics, which is neither. -/
theorem C2_counterexample_mod_zero :
    EvaluatorFactory.binary_create .integer .modulo =
      .ok (.numeric .int32 .modulo) ∧
    (BinaryEvaluator.numeric .int32 .modulo).binary_eval
        (.int32 1) (.int32 0) =
      .error (.rustPanic
        "attempt to calculate the remainder with a divisor of zero") ∧
    (BinaryEvaluator.numeric .int32 .modulo).binary_eval
        (.int32 1) (.int32 0) ≠ .error .overFlow ∧
    (BinaryEvaluator.numeric .int32 .modulo).binary_eval
        (.int32 1) (.int32 0) ≠ .ok (.int32 (Int.tmod 1 0)) := by
  refine ⟨rfl, rfl, ?_, ?_⟩ <;>
    simp [BinaryEvaluator.binary_eval, numericBinaryEval,
      intMacroBinaryEval, NumericCls.getInt?]

theorem intMacro_arith (get? : DataValue → Option Int)
    (mk : Int → DataValue) (lo hi a b : Int)
    (hga : get? (mk a) = some a) (hgb : get? (mk b) = some b) :
    (intMacroBinaryEval get? mk lo hi .plus (mk a) (mk b) =
      if lo ≤ a + b ∧ a + b ≤ hi
      then .ok (mk (a + b)) else .error .overFlow) ∧
    (intMacroBinaryEval get? mk lo hi .minus (mk a) (mk b) =
      if lo ≤ a - b ∧ a - b ≤ hi
      then .ok (mk (a - b)) else .error .overFlow) ∧
    (intMacroBinaryEval get? mk lo hi .multiply (mk a) (mk b) =
      if lo ≤ a * b ∧ a * b ≤ hi
      then .ok (mk (a * b)) else .error .overFlow) ∧
    (intMacroBinaryEval get? mk lo hi .modulo (mk a) (mk b) =
      if b = 0
      then .error (.rustPanic
        "attempt to calculate the remainder with a divisor of zero")
      else .ok (mk (Int.tmod a b))) := by
  refine ⟨?_, ?_, ?_, ?_⟩
  · simp only [intMacroBinaryEval, hga, hgb, checkedInt]
    by_cases hcond : lo ≤ a + b ∧ a + b ≤ hi
    · rw [if_pos hcond, if_pos hcond]
    · rw [if_neg hcond, if_neg hcond]
  · simp only [intMacroBinaryEval, hga, hgb, checkedInt]
    by_cases hcond : lo ≤ a - b ∧ a - b ≤ hi
    · rw [if_pos hcond, if_pos hcond]
    · rw [if_neg hcond, if_neg hcond]
  · simp only [intMacroBinaryEval, hga, hgb, checkedInt]
    by_cases hcond : lo ≤ a * b ∧ a * b ≤ hi
    · rw [if_pos hcond, if_pos hcond]
    · rw [if_neg hcond, if_neg hcond]
  · by_cases hb : b = 0
    · subst hb
      simp [intMacroBinaryEval, hga, hgb]
    · simp [intMacroBinaryEval, hga, hgb, hb]

/-- C2, amended. For every machine-integer typed evaluator created by
`EvaluatorFactory::binary_create` and in-range operands: `Plus`, `Minus`
and `Multiply` return `Ok` with the exact result when it fits the operand
type and fail with `OverFlow` otherwise; `Modulo` applies the unchecked
Rust remainder, returning `Ok` with the truncated remainder for a nonzero
divisor and panicking (not an `OverFlow` error) on a zero divisor. -/
theorem C2_integer_arithmetic_overflow (ty : LogicalType) (c : NumericCls)
    (op : BinaryOperator) (ev : BinaryEvaluator) (a b : Int)
    (hty : ty.intCls = some c)
    (hc : EvaluatorFactory.binary_create ty op = .ok ev)
    (ha1 : c.intLo ≤ a) (ha2 : a ≤ c.intHi)
    (hb1 : c.intLo ≤ b) (hb2 : b ≤ c.intHi) :
    (op = .plus →
      ev.binary_eval (c.mkInt a) (c.mkInt b) =
        if c.intLo ≤ a + b ∧ a + b ≤ c.intHi
        then .ok (c.mkInt (a + b)) else .error .overFlow) ∧
    (op = .minus →
      ev.binary_eval (c.mkInt a) (c.mkInt b) =
        if c.intLo ≤ a - b ∧ a - b ≤ c.intHi
        then .ok (c.mkInt (a - b)) else .error .overFlow) ∧
    (op = .multiply →
      ev.binary_eval (c.mkInt a) (c.mkInt b) =
        if c.intLo ≤ a * b ∧ a * b ≤ c.intHi
        then .ok (c.mkInt (a * b)) else .error .overFlow) ∧
    (op = .modulo →
      ev.binary_eval (c.mkInt a) (c.mkInt b) =
        if b = 0
        then .error (.rustPanic
          "attempt to calculate the remainder with a divisor of zero")
        else .ok (c.mkInt (Int.tmod a b))) := by
  refine ⟨fun hop => ?_, fun hop => ?_, fun hop => ?_, fun hop => ?_⟩ <;>
    subst hop <;>
    cases ty <;> simp only [LogicalType.intCls, Option.some.injEq] at hty <;>
    first
      | exact Option.noConfusion hty
      | · subst hty
          simp only [EvaluatorFactory.binary_create,
            EvaluatorFactory.numericBinaryDispatch, Except.ok.injEq] at hc
          subst hc
          simp only [BinaryEvaluator.binary_eval, numericBinaryEval]
          first
            | exact (intMacro_arith _ _ _ _ a b rfl rfl).1
            | exact (intMacro_arith _ _ _ _ a b rfl rfl).2.1
            | exact (intMacro_arith _ _ _ _ a b rfl rfl).2.2.1
            | exact (intMacro_arith _ _ _ _ a b rfl rfl).2.2.2

theorem C2_integer_arithmetic_overflow_witness :
    ((.plus : BinaryOperator) = .plus →
      (BinaryEvaluator.numeric .int32 .plus).binary_eval
          (NumericCls.mkInt .int32 2147483647) (NumericCls.mkInt .int32 1) =
        if NumericCls.intLo .int32 ≤ 2147483647 + 1 ∧
            2147483647 + 1 ≤ NumericCls.intHi .int32
        then .ok (NumericCls.mkInt .int32 (2147483647 + 1))
        else .error .overFlow) ∧
    ((.plus : BinaryOperator) = .minus →
      (BinaryEvaluator.numeric .int32 .plus).binary_eval
          (NumericCls.mkInt .int32 2147483647) (NumericCls.mkInt .int32 1) =
        if NumericCls.intLo .int32 ≤ 2147483647 - 1 ∧
            2147483647 - 1 ≤ NumericCls.intHi .int32
        then .ok (NumericCls.mkInt .int32 (2147483647 - 1))
        else .error .overFlow) ∧
    ((.plus : BinaryOperator) = .multiply →
      (BinaryEvaluator.numeric .int32 .plus).binary_eval
          (NumericCls.mkInt .int32 2147483647) (NumericCls.mkInt .int32 1) =
        if NumericCls.intLo .int32 ≤ 2147483647 * 1 ∧
            2147483647 * 1 ≤ NumericCls.intHi .int32
        then .ok (NumericCls.mkInt .int32 (2147483647 * 1))
        else .error .overFlow) ∧
    ((.plus : BinaryOperator) = .modulo →
      (BinaryEvaluator.numeric .int32 .plus).binary_eval
          (NumericCls.mkInt .int32 2147483647) (NumericCls.mkInt .int32 1) =
        if (1 : Int) = 0
        then .error (.rustPanic
          "attempt to calculate the remainder with a divisor of zero")
        else .ok (NumericCls.mkInt .int32 (Int.tmod 2147483647 1))) :=
  C2_integer_arithmetic_overflow .integer .int32 .plus _ 2147483647 1
    rfl rfl (by decide) (by decide) (by decide) (by decide)

/-! ### Integer division is total and yields a float (claim C10) -/

/-- C10. For every signed or unsigned machine-integer type, the `Divide`
evaluator is total on non-null in-range operands: it returns `Ok` with a
`Float64` value obtained by casting both operands to `f64` and dividing —
in particular a zero divisor still yields `Ok` of a `Float64` value and
never a division error. -/
theorem C10_integer_divide_total (ty : LogicalType) (c : NumericCls)
    (ev : BinaryEvaluator) (a b : Int)
    (hty : ty.intCls = some c)
    (hc : EvaluatorFactory.binary_create ty .divide = .ok ev)
    (ha1 : c.intLo ≤ a) (ha2 : a ≤ c.intHi)
    (hb1 : c.intLo ≤ b) (hb2 : b ≤ c.intHi) :
    ev.binary_eval (c.mkInt a) (c.mkInt b) =
      .ok (.float64 (F64.div (F64.ofInt a) (F64.ofInt b))) := by
  cases ty <;> simp only [LogicalType.intCls, Option.some.injEq] at hty <;>
  first
    | exact Option.noConfusion hty
    | · subst hty
        simp only [EvaluatorFactory.binary_create,
          EvaluatorFactory.numericBinaryDispatch, Except.ok.injEq] at hc
        subst hc
        rfl

theorem C10_integer_divide_total_witness :
    (BinaryEvaluator.numeric .int32 .divide).binary_eval
        (NumericCls.mkInt .int32 1) (NumericCls.mkInt .int32 0) =
      .ok (.float64 (F64.div (F64.ofInt 1) (F64.ofInt 0))) :=
  C10_integer_divide_total .integer .int32 _ 1 0 rfl rfl
    (by decide) (by decide) (by decide) (by decide)

/-! ### Value casting -/

/-- Modelled from the spec: `DataValue::cast` (from `types/value.rs`, not
among the sources at hand). Null casts to null; a value already of the
target type is returned unchanged; integer payloads widen or narrow with a
range check and promote to floats and decimals; a 32-bit float promotes to
a 64-bit float; everything else fails. -/
def DataValue.cast (v : DataValue) (target : LogicalType) :
    Except DatabaseError DataValue :=
  if v.logicalType = target then .ok v
  else
    match v with
    | .null => .ok .null
    | _ =>
      match (v.logicalType).intCls, v with
      | some c, _ =>
        match c.getInt? v with
        | some i =>
          match target.intCls with
          | some c2 =>
            if c2.intLo ≤ i ∧ i ≤ c2.intHi then .ok (c2.mkInt i)
            else .error .castFail
          | none =>
            match target with
            | .float => .ok (.float32 (.ofInt i))
            | .double => .ok (.float64 (.ofInt i))
            | .decimal _ _ => .ok (.decimal (.prim i 0))
            | _ => .error .castFail
        | none => .error .castFail
      | none, .float32 f =>
        match target with
        | .double => .ok (.float64 (.ofF32 f))
        | _ => .error .castFail
      | none, _ => .error .castFail

/-! ### Columns -/

/-- Model of `ColumnRelation` from the catalog (not among the sources at
hand; the variants and fields appear in the source tests of
`src/expression/mod.rs`). -/
inductive ColumnRelation where
  | noRel
  | table (columnId : Nat) (tableName : String) (isTemp : Bool)
deriving DecidableEq, Repr

/-- Model of `ColumnSummary`: the identity `(column_name, relation)` used
to deduplicate column references (spec glossary). -/
structure ColumnSummary where
  name : String
  relation : ColumnRelation
deriving DecidableEq, Repr

/-- Model of `ColumnDesc` (catalog metadata of a column; the constructor
argument order `(datatype, primary, unique, default)` appears in the
source tests). The default-value expression is omitted from the model. -/
structure ColumnDesc where
  datatype : LogicalType
  primary : Option Nat
  unique : Bool
deriving DecidableEq, Repr

/-- Model of `ColumnCatalog` / `ColumnRef` (the reference-counted handle
is identified with the catalog entry; `ColumnRef` equality is value
equality on the entry, spec section 9). -/
structure ColumnCatalog where
  summary : ColumnSummary
  nullable : Bool
  desc : ColumnDesc
deriving DecidableEq, Repr

/-- A `ColumnRef` is a shared handle to a `ColumnCatalog` entry. -/
abbrev ColumnRef := ColumnCatalog

/-- Model of `ColumnCatalog::new(name, nullable, desc)`: a column with no
relation. -/
def ColumnCatalog.new (name : String) (nullable : Bool) (desc : ColumnDesc) :
    ColumnCatalog :=
  { summary := { name := name, relation := .noRel },
    nullable := nullable, desc := desc }

/-- The data type of the column, `ColumnCatalog::datatype()`. -/
def ColumnCatalog.datatype (c : ColumnCatalog) : LogicalType :=
  c.desc.datatype

/-! ### The expression tree -/

/-- Model of `TrimWhereField` (`sqlparser`, an external crate). -/
inductive TrimWhereField where
  | both | leading | trailing
deriving DecidableEq, Repr

/-- Modelled from the spec: the aggregate kinds of `expression/agg.rs`
(not among the sources at hand; `Count` and `Avg` appear in the sources at
hand, the rest per spec section 3). -/
inductive AggKind where
  | count | sum | min | max | avg
deriving DecidableEq, Repr

/-- Debug rendering of an aggregate kind, for `output_name`. -/
def AggKind.debugName : AggKind → String
  | .count => "Count"
  | .sum => "Sum"
  | .min => "Min"
  | .max => "Max"
  | .avg => "Avg"

/-- Modelled: whether an aggregate kind admits distinct
(`AggKind::allow_distinct`, not among the sources at hand; only used
inside `output_name` rendering). -/
def AggKind.allow_distinct : AggKind → Bool
  | _ => true

/-- Model of the function-implementation handle carried by
`ScalarFunction` / `TableFunction` (`expression/function/`, not among the
sources at hand): only its summary name and return type are observable
from the embedded code. -/
structure FunImpl where
  name : String
  retTy : LogicalType
deriving DecidableEq, Repr

mutual
/-- Embedding of `ScalarExpression` from `src/expression/mod.rs`, variant
for variant and field for field. Child lists use the mutual `ExprList`,
optional children the mutual `OptExpr`, and the `CaseWhen` pair list the
mutual `ExprPairList`, so that recursion over trees is structural. -/
inductive ScalarExpression where
  | constant (v : DataValue)
  | columnRef (col : ColumnRef)
  | alias (expr : ScalarExpression) (aliasTy : AliasType)
  | typeCast (expr : ScalarExpression) (ty : LogicalType)
  | isNull (negated : Bool) (expr : ScalarExpression)
  | unary (op : UnaryOperator) (expr : ScalarExpression)
      (evaluator : Option UnaryEvaluator) (ty : LogicalType)
  | binary (op : BinaryOperator) (leftExpr rightExpr : ScalarExpression)
      (evaluator : Option BinaryEvaluator) (ty : LogicalType)
  | aggCall (distinct : Bool) (kind : AggKind) (args : ExprList)
      (ty : LogicalType)
  | inExpr (negated : Bool) (expr : ScalarExpression) (args : ExprList)
  | between (negated : Bool) (expr leftExpr rightExpr : ScalarExpression)
  | subString (expr : ScalarExpression) (forExpr fromExpr : OptExpr)
  | position (expr inExpr : ScalarExpression)
  | trim (expr : ScalarExpression) (trimWhatExpr : OptExpr)
      (trimWhere : Option TrimWhereField)
  | empty
  | reference (expr : ScalarExpression) (pos : Nat)
  | tuple (args : ExprList)
  | scalaFunction (args : ExprList) (inner : FunImpl)
  | tableFunction (args : ExprList) (inner : FunImpl)
  | ifExpr (condition leftExpr rightExpr : ScalarExpression)
      (ty : LogicalType)
  | ifNull (leftExpr rightExpr : ScalarExpression) (ty : LogicalType)
  | nullIf (leftExpr rightExpr : ScalarExpression) (ty : LogicalType)
  | coalesce (exprs : ExprList) (ty : LogicalType)
  | caseWhen (operandExpr : OptExpr) (exprPairs : ExprPairList)
      (elseExpr : OptExpr) (ty : LogicalType)
deriving DecidableEq, Repr

/-- Embedding of `AliasType` from `src/expression/mod.rs`. -/
inductive AliasType where
  | name (s : String)
  | exprA (e : ScalarExpression)
deriving DecidableEq, Repr

/-- Cons-list of expressions, mutual with `ScalarExpression`. -/
inductive ExprList where
  | nil
  | cons (e : ScalarExpression) (es : ExprList)
deriving DecidableEq, Repr

/-- Optional child expression, mutual with `ScalarExpression`. -/
inductive OptExpr where
  | none
  | some (e : ScalarExpression)
deriving DecidableEq, Repr

/-- List of when/then pairs, mutual with `ScalarExpression`. -/
inductive ExprPairList where
  | nil
  | cons (whenE thenE : ScalarExpression) (rest : ExprPairList)
deriving DecidableEq, Repr
end

/-- Length of an `ExprList`. -/
def ExprList.length : ExprList → Nat
  | .nil => 0
  | .cons _ es => 1 + es.length

/-- Whether an `ExprList` is empty. -/
def ExprList.isEmpty : ExprList → Bool
  | .nil => true
  | .cons _ _ => false

/-- Append on `ExprList`. -/
def ExprList.append : ExprList → ExprList → ExprList
  | .nil, ys => ys
  | .cons x xs, ys => .cons x (xs.append ys)

mutual
/-- Embedding of `ScalarExpression::return_type` from
`src/expression/mod.rs`. The source panics (`unreachable!()`) on `Empty`
and `TableFunction`; those arms are embedded as the null type. -/
def ScalarExpression.return_type : ScalarExpression → LogicalType
  | .constant v => v.logicalType
  | .columnRef col => col.datatype
  | .binary _ _ _ _ ty => ty
  | .unary _ _ _ ty => ty
  | .typeCast _ ty => ty
  | .aggCall _ _ _ ty => ty
  | .ifExpr _ _ _ ty => ty
  | .ifNull _ _ ty => ty
  | .nullIf _ _ ty => ty
  | .coalesce _ ty => ty
  | .caseWhen _ _ _ ty => ty
  | .isNull _ _ => .boolean
  | .inExpr _ _ _ => .boolean
  | .between _ _ _ _ => .boolean
  | .subString _ _ _ => .varchar none .characters
  | .position _ _ => .integer
  | .trim _ _ _ => .varchar none .characters
  | .alias expr _ => expr.return_type
  | .reference expr _ => expr.return_type
  | .empty => .sqlNull
  | .tableFunction _ _ => .sqlNull
  | .tuple exprs => .tuple exprs.returnTypes
  | .scalaFunction _ inner => inner.retTy

/-- Elementwise `return_type` over an expression list (the `Tuple` arm of
the source maps `return_type` over the components). -/
def ExprList.returnTypes : ExprList → LTList
  | .nil => .nil
  | .cons e es => .cons e.return_type es.returnTypes
end

/-! ### Display strings -/

/-- Modelled: the `Display` rendering of a logical type (`types/mod.rs`
is not among the sources at hand); only used inside `output_name`
strings, whose exact content is not load bearing. -/
def LogicalType.displayString : LogicalType → String
  | .sqlNull => "null"
  | .boolean => "boolean"
  | .tinyint => "tinyint"
  | .smallint => "smallint"
  | .integer => "integer"
  | .bigint => "bigint"
  | .uTinyint => "tinyint unsigned"
  | .uSmallint => "smallint unsigned"
  | .uInteger => "integer unsigned"
  | .uBigint => "bigint unsigned"
  | .float => "float"
  | .double => "double"
  | .char _ _ => "char"
  | .varchar _ _ => "varchar"
  | .date => "date"
  | .dateTime => "datetime"
  | .time _ => "time"
  | .timeStamp _ _ => "timestamp"
  | .decimal _ _ => "decimal"
  | .tuple _ => "tuple"

/-- Modelled: the `Display` rendering of a value (`types/value.rs` is not
among the sources at hand); only used inside `output_name` strings. -/
def DataValue.displayString : DataValue → String
  | .null => "null"
  | .boolean b => toString b
  | .int8 v | .int16 v | .int32 v | .int64 v => toString v
  | .uint8 v | .uint16 v | .uint32 v | .uint64 v => toString v
  | .float32 f => (repr f).pretty
  | .float64 f => (repr f).pretty
  | .utf8 value _ _ => value
  | .date v => toString v
  | .dateTime v => toString v
  | .time32 v _ => toString v
  | .time64 v _ _ => toString v
  | .decimal d => (repr d).pretty
  | .tupleV vs => (repr vs).pretty

/-- Embedding of `BinaryOperator::fmt` from `src/expression/mod.rs`. -/
def BinaryOperator.displayString : BinaryOperator → String
  | .plus => "+"
  | .minus => "-"
  | .multiply => "*"
  | .divide => "/"
  | .modulo => "mod"
  | .stringConcat => "&"
  | .gt => ">"
  | .lt => "<"
  | .gtEq => ">="
  | .ltEq => "<="
  | .spaceship => "<=>"
  | .eq => "="
  | .notEq => "!="
  | .and => "&&"
  | .or => "||"
  | .like escape =>
    match escape with
    | Option.some c => "like(escape: " ++ toString c ++ ")"
    | Option.none => "like"
  | .notLike escape =>
    match escape with
    | Option.some c => "not like(escape: " ++ toString c ++ ")"
    | Option.none => "not like"

/-- Embedding of `UnaryOperator::fmt` from `src/expression/mod.rs`. -/
def UnaryOperator.displayString : UnaryOperator → String
  | .plus => "+"
  | .minus => "-"
  | .not => "!"

/-- Modelled: `ColumnCatalog::full_name` (catalog code, not among the
sources at hand): the table-qualified column name. -/
def ColumnCatalog.full_name (c : ColumnCatalog) : String :=
  match c.summary.relation with
  | .table _ tableName _ => tableName ++ "." ++ c.summary.name
  | .noRel => c.summary.name

mutual
/-- Embedding of `ScalarExpression::output_name` from
`src/expression/mod.rs`, arm for arm (the source renders subexpressions
through their `Display`, which is `output_name` itself). The source
panics on `Empty`; that arm is embedded as the empty string. -/
def ScalarExpression.output_name : ScalarExpression → String
  | .constant value => value.displayString
  | .columnRef col => col.full_name
  | .alias expr aliasTy =>
    match aliasTy with
    | .name a => a
    | .exprA aliasExpr =>
      "(" ++ expr.output_name ++ ") as (" ++ aliasExpr.output_name ++ ")"
  | .typeCast expr ty =>
    "cast (" ++ expr.output_name ++ " as " ++ ty.displayString ++ ")"
  | .isNull negated expr =>
    expr.output_name ++ " " ++ (if negated then "is not null" else "is null")
  | .unary op expr _ _ => op.displayString ++ expr.output_name
  | .binary op leftExpr rightExpr _ _ =>
    "(" ++ leftExpr.output_name ++ " " ++ op.displayString ++ " "
      ++ rightExpr.output_name ++ ")"
  | .aggCall distinct kind args _ =>
    kind.debugName ++ "("
      ++ (if kind.allow_distinct && distinct then "distinct " else "")
      ++ args.outputNames ++ ")"
  | .inExpr negated expr args =>
    expr.output_name ++ " " ++ (if negated then "not in" else "in")
      ++ " (" ++ args.outputNames ++ ")"
  | .between negated expr leftExpr rightExpr =>
    expr.output_name ++ " "
      ++ (if negated then "not between" else "between")
      ++ " [" ++ leftExpr.output_name ++ ", " ++ rightExpr.output_name ++ "]"
  | .subString expr forExpr fromExpr =>
    "substring(" ++ expr.output_name
      ++ (match fromExpr.outputName? with
          | Option.some s => ", from: " ++ s
          | Option.none => "")
      ++ (match forExpr.outputName? with
          | Option.some s => ", for: " ++ s
          | Option.none => "")
      ++ ")"
  | .position expr inE =>
    "position(" ++ expr.output_name ++ " in " ++ inE.output_name ++ ")"
  | .trim expr trimWhatExpr trimWhere =>
    let trimWhatStr :=
      match trimWhatExpr.outputName? with
      | Option.some s => s
      | Option.none => " "
    let trimWhereStr :=
      match trimWhere with
      | Option.some .both => "both \x27" ++ trimWhatStr ++ "\x27 from"
      | Option.some .leading => "leading \x27" ++ trimWhatStr ++ "\x27 from"
      | Option.some .trailing => "trailing \x27" ++ trimWhatStr ++ "\x27 from"
      | Option.none =>
        if trimWhatStr.isEmpty then ""
        else "\x27" ++ trimWhatStr ++ "\x27 from"
    "trim(" ++ trimWhereStr ++ " " ++ expr.output_name ++ ")"
  | .reference expr _ => expr.output_name
  | .empty => ""
  | .tuple args => "(" ++ args.outputNames ++ ")"
  | .scalaFunction args inner => inner.name ++ "(" ++ args.outputNames ++ ")"
  | .tableFunction args inner => inner.name ++ "(" ++ args.outputNames ++ ")"
  | .ifExpr condition leftExpr rightExpr _ =>
    "if " ++ condition.output_name ++ " (" ++ leftExpr.output_name ++ ", "
      ++ rightExpr.output_name ++ ")"
  | .ifNull leftExpr rightExpr _ =>
    "ifnull(" ++ leftExpr.output_name ++ ", " ++ rightExpr.output_name ++ ")"
  | .nullIf leftExpr rightExpr _ =>
    "ifnull(" ++ leftExpr.output_name ++ ", " ++ rightExpr.output_name ++ ")"
  | .coalesce exprs _ => "coalesce(" ++ exprs.outputNames ++ ")"
  | .caseWhen operandExpr exprPairs elseExpr _ =>
    "case "
      ++ (match operandExpr.outputName? with
          | Option.some s => s ++ " "
          | Option.none => "")
      ++ exprPairs.whenThenNames ++ " "
      ++ (match elseExpr.outputName? with
          | Option.some s => "else " ++ s ++ " "
          | Option.none => "")
      ++ "end"

/-- Comma-joined `output_name` of an expression list. -/
def ExprList.outputNames : ExprList → String
  | .nil => ""
  | .cons e .nil => e.output_name
  | .cons e es => e.output_name ++ ", " ++ es.outputNames

/-- The `output_name` of an optional child, when present. -/
def OptExpr.outputName? : OptExpr → Option String
  | .none => Option.none
  | .some e => Option.some e.output_name

/-- Space-joined rendering of the when/then pairs of a `CaseWhen`. -/
def ExprPairList.whenThenNames : ExprPairList → String
  | .nil => ""
  | .cons w t .nil => "when " ++ w.output_name ++ " then " ++ t.output_name
  | .cons w t rest =>
    "when " ++ w.output_name ++ " then " ++ t.output_name ++ " "
      ++ rest.whenThenNames
end

mutual
/-- Embedding of `ScalarExpression::output_column` from
`src/expression/mod.rs`: a column reference yields its handle, an alias
whose alias is an expression and a positional reference delegate to that
expression, and every other node manufactures an anonymous column named by
`output_name` with its `return_type`. -/
def ScalarExpression.output_column : ScalarExpression → ColumnRef
  | .columnRef col => col
  | .alias _ (.exprA aliasExpr) => aliasExpr.output_column
  | .reference expr _ => expr.output_column
  | e =>
    ColumnCatalog.new e.output_name true
      { datatype := e.return_type, primary := Option.none, unique := false }
end

mutual
/-- Embedding of the inner `columns_collect` of
`ScalarExpression::referenced_columns` from `src/expression/mod.rs`: a
post-order style walk that, when `only_column_ref` is false, also treats
every expression as a virtual column through its `output_column`. The
source panics (`unreachable!()`) on `Reference` and `Empty`; those arms
contribute nothing here. -/
def ScalarExpression.columns_collect
    (e : ScalarExpression) (only_column_ref : Bool) : List ColumnRef :=
  (if !only_column_ref then [e.output_column] else [])
    ++ match e with
  | .columnRef col => [col]
  | .alias expr _ => expr.columns_collect only_column_ref
  | .typeCast expr _ => expr.columns_collect only_column_ref
  | .isNull _ expr => expr.columns_collect only_column_ref
  | .unary _ expr _ _ => expr.columns_collect only_column_ref
  | .binary _ leftExpr rightExpr _ _ =>
    leftExpr.columns_collect only_column_ref
      ++ rightExpr.columns_collect only_column_ref
  | .aggCall _ _ args _ => args.columnsCollect only_column_ref
  | .scalaFunction args _ => args.columnsCollect only_column_ref
  | .tableFunction args _ => args.columnsCollect only_column_ref
  | .tuple args => args.columnsCollect only_column_ref
  | .coalesce args _ => args.columnsCollect only_column_ref
  | .inExpr _ expr args =>
    expr.columns_collect only_column_ref
      ++ args.columnsCollect only_column_ref
  | .between _ expr leftExpr rightExpr =>
    expr.columns_collect only_column_ref
      ++ leftExpr.columns_collect only_column_ref
      ++ rightExpr.columns_collect only_column_ref
  | .subString expr forExpr fromExpr =>
    expr.columns_collect only_column_ref
      ++ forExpr.columnsCollect? only_column_ref
      ++ fromExpr.columnsCollect? only_column_ref
  | .position expr inE =>
    expr.columns_collect only_column_ref
      ++ inE.columns_collect only_column_ref
  | .trim expr trimWhatExpr _ =>
    expr.columns_collect only_column_ref
      ++ trimWhatExpr.columnsCollect? only_column_ref
  | .constant _ => []
  | .reference _ _ => []
  | .empty => []
  | .ifExpr condition leftExpr rightExpr _ =>
    condition.columns_collect only_column_ref
      ++ leftExpr.columns_collect only_column_ref
      ++ rightExpr.columns_collect only_column_ref
  | .ifNull leftExpr rightExpr _ =>
    leftExpr.columns_collect only_column_ref
      ++ rightExpr.columns_collect only_column_ref
  | .nullIf leftExpr rightExpr _ =>
    leftExpr.columns_collect only_column_ref
      ++ rightExpr.columns_collect only_column_ref
  | .caseWhen operandExpr exprPairs elseExpr _ =>
    operandExpr.columnsCollect? only_column_ref
      ++ exprPairs.columnsCollectPairs only_column_ref
      ++ elseExpr.columnsCollect? only_column_ref

/-- Collection over a child list. -/
def ExprList.columnsCollect (es : ExprList) (only_column_ref : Bool) :
    List ColumnRef :=
  match es with
  | .nil => []
  | .cons e rest =>
    e.columns_collect only_column_ref ++ rest.columnsCollect only_column_ref

/-- Collection over an optional child. -/
def OptExpr.columnsCollect? (o : OptExpr) (only_column_ref : Bool) :
    List ColumnRef :=
  match o with
  | .none => []
  | .some e => e.columns_collect only_column_ref

/-- Collection over when/then pairs. -/
def ExprPairList.columnsCollectPairs (ps : ExprPairList)
    (only_column_ref : Bool) : List ColumnRef :=
  match ps with
  | .nil => []
  | .cons w t rest =>
    w.columns_collect only_column_ref ++ t.columns_collect only_column_ref
      ++ rest.columnsCollectPairs only_column_ref
end

/-- Embedding of `ScalarExpression::referenced_columns` from
`src/expression/mod.rs`. -/
def ScalarExpression.referenced_columns
    (e : ScalarExpression) (only_column_ref : Bool) : List ColumnRef :=
  e.columns_collect only_column_ref

/-! ### The BindEvaluator pass -/

/-- The signed counterpart a unsigned operand is cast to before a unary
operator, from the `TypeCast` insertion in `BindEvaluator::visit_unary`
(`src/expression/mod.rs`). The source panics on other types
(`unreachable!()`); that arm is embedded as the null type. -/
def LogicalType.signedOfUnsigned : LogicalType → LogicalType
  | .uTinyint => .tinyint
  | .uSmallint => .smallint
  | .uInteger => .integer
  | .uBigint => .bigint
  | _ => .sqlNull

/-- The cast insertion `fn_cast` of `BindEvaluator::visit_binary`: wrap
the side in a `TypeCast` to `ty` exactly when its return type differs. -/
def BindEvaluator.fn_cast (e : ScalarExpression) (ty : LogicalType) :
    ScalarExpression :=
  if e.return_type = ty then e else .typeCast e ty

namespace BindEvaluator

mutual
/-- Embedding of the `BindEvaluator` pass over an expression tree: the
`visit_unary` and `visit_binary` hooks follow `src/expression/mod.rs`
line for line, and the remaining variants follow the default walker of
`expression/visitor_mut.rs` (not among the sources at hand), modelled
from the spec as recursing into every child. -/
def visit : ScalarExpression → Except DatabaseError ScalarExpression
  | .constant v => .ok (.constant v)
  | .columnRef col => .ok (.columnRef col)
  | .empty => .ok .empty
  | .alias expr aliasTy =>
    match visit expr with
    | .error err => .error err
    | .ok e' =>
      match visitAlias aliasTy with
      | .error err => .error err
      | .ok a' => .ok (.alias e' a')
  | .typeCast expr ty =>
    match visit expr with
    | .error err => .error err
    | .ok e' => .ok (.typeCast e' ty)
  | .isNull negated expr =>
    match visit expr with
    | .error err => .error err
    | .ok e' => .ok (.isNull negated e')
  | .unary op expr _ nodeTy =>
    match visit expr with
    | .error err => .error err
    | .ok e' =>
      let ty := e'.return_type
      let e'' :=
        if ty.is_unsigned_numeric then .typeCast e' ty.signedOfUnsigned
        else e'
      match EvaluatorFactory.unary_create ty op with
      | .error err => .error err
      | .ok ev => .ok (.unary op e'' (some ev) nodeTy)
  | .binary op leftExpr rightExpr _ nodeTy =>
    match visit leftExpr with
    | .error err => .error err
    | .ok l' =>
      match visit rightExpr with
      | .error err => .error err
      | .ok r' =>
        match LogicalType.max_logical_type l'.return_type r'.return_type with
        | .error err => .error err
        | .ok ty =>
          match EvaluatorFactory.binary_create ty op with
          | .error err => .error err
          | .ok ev =>
            .ok (.binary op (fn_cast l' ty) (fn_cast r' ty) (some ev) nodeTy)
  | .aggCall distinct kind args ty =>
    match visitList args with
    | .error err => .error err
    | .ok args' => .ok (.aggCall distinct kind args' ty)
  | .inExpr negated expr args =>
    match visit expr with
    | .error err => .error err
    | .ok e' =>
      match visitList args with
      | .error err => .error err
      | .ok args' => .ok (.inExpr negated e' args')
  | .between negated expr leftExpr rightExpr =>
    match visit expr with
    | .error err => .error err
    | .ok e' =>
      match visit leftExpr with
      | .error err => .error err
      | .ok l' =>
        match visit rightExpr with
        | .error err => .error err
        | .ok r' => .ok (.between negated e' l' r')
  | .subString expr forExpr fromExpr =>
    match visit expr with
    | .error err => .error err
    | .ok e' =>
      match visitOpt forExpr with
      | .error err => .error err
      | .ok f' =>
        match visitOpt fromExpr with
        | .error err => .error err
        | .ok fr' => .ok (.subString e' f' fr')
  | .position expr inE =>
    match visit expr with
    | .error err => .error err
    | .ok e' =>
      match visit inE with
      | .error err => .error err
      | .ok i' => .ok (.position e' i')
  | .trim expr trimWhatExpr trimWhere =>
    match visit expr with
    | .error err => .error err
    | .ok e' =>
      match visitOpt trimWhatExpr with
      | .error err => .error err
      | .ok t' => .ok (.trim e' t' trimWhere)
  | .reference expr pos =>
    match visit expr with
    | .error err => .error err
    | .ok e' => .ok (.reference e' pos)
  | .tuple args =>
    match visitList args with
    | .error err => .error err
    | .ok args' => .ok (.tuple args')
  | .scalaFunction args inner =>
    match visitList args with
    | .error err => .error err
    | .ok args' => .ok (.scalaFunction args' inner)
  | .tableFunction args inner =>
    match visitList args with
    | .error err => .error err
    | .ok args' => .ok (.tableFunction args' inner)
  | .ifExpr condition leftExpr rightExpr ty =>
    match visit condition with
    | .error err => .error err
    | .ok c' =>
      match visit leftExpr with
      | .error err => .error err
      | .ok l' =>
        match visit rightExpr with
        | .error err => .error err
        | .ok r' => .ok (.ifExpr c' l' r' ty)
  | .ifNull leftExpr rightExpr ty =>
    match visit leftExpr with
    | .error err => .error err
    | .ok l' =>
      match visit rightExpr with
      | .error err => .error err
      | .ok r' => .ok (.ifNull l' r' ty)
  | .nullIf leftExpr rightExpr ty =>
    match visit leftExpr with
    | .error err => .error err
    | .ok l' =>
      match visit rightExpr with
      | .error err => .error err
      | .ok r' => .ok (.nullIf l' r' ty)
  | .coalesce exprs ty =>
    match visitList exprs with
    | .error err => .error err
    | .ok es' => .ok (.coalesce es' ty)
  | .caseWhen operandExpr exprPairs elseExpr ty =>
    match visitOpt operandExpr with
    | .error err => .error err
    | .ok o' =>
      match visitPairs exprPairs with
      | .error err => .error err
      | .ok p' =>
        match visitOpt elseExpr with
        | .error err => .error err
        | .ok el' => .ok (.caseWhen o' p' el' ty)

/-- The pass over an alias tag: an expression alias is itself visited. -/
def visitAlias : AliasType → Except DatabaseError AliasType
  | .name s => .ok (.name s)
  | .exprA e =>
    match visit e with
    | .error err => .error err
    | .ok e' => .ok (.exprA e')

/-- The pass over a child list. -/
def visitList : ExprList → Except DatabaseError ExprList
  | .nil => .ok .nil
  | .cons e es =>
    match visit e with
    | .error err => .error err
    | .ok e' =>
      match visitList es with
      | .error err => .error err
      | .ok es' => .ok (.cons e' es')

/-- The pass over an optional child. -/
def visitOpt : OptExpr → Except DatabaseError OptExpr
  | .none => .ok .none
  | .some e =>
    match visit e with
    | .error err => .error err
    | .ok e' => .ok (.some e')

/-- The pass over when/then pairs. -/
def visitPairs : ExprPairList → Except DatabaseError ExprPairList
  | .nil => .ok .nil
  | .cons w t rest =>
    match visit w with
    | .error err => .error err
    | .ok w' =>
      match visit t with
      | .error err => .error err
      | .ok t' =>
        match visitPairs rest with
        | .error err => .error err
        | .ok rest' => .ok (.cons w' t' rest')
end

end BindEvaluator

mutual
/-- The post-pass shape of binary nodes: every `Binary` node carries a
cached evaluator, its two children have the same return type, that type is
its own join under `max_logical_type`, and the cached evaluator is exactly
the one `binary_create` yields for that type and operator. -/
def binaryBound : ScalarExpression → Bool
  | .binary op l r ev _ =>
    (match ev with
     | some e =>
       match EvaluatorFactory.binary_create l.return_type op with
       | .ok e2 => e2 == e
       | .error _ => false
     | none => false)
    && (l.return_type == r.return_type)
    && (match LogicalType.max_logical_type l.return_type r.return_type with
        | .ok t => t == l.return_type
        | .error _ => false)
    && binaryBound l && binaryBound r
  | .constant _ => true
  | .columnRef _ => true
  | .empty => true
  | .alias e a => binaryBound e && binaryBoundAlias a
  | .typeCast e _ => binaryBound e
  | .isNull _ e => binaryBound e
  | .unary _ e _ _ => binaryBound e
  | .aggCall _ _ args _ => binaryBoundList args
  | .inExpr _ e args => binaryBound e && binaryBoundList args
  | .between _ e l r => binaryBound e && binaryBound l && binaryBound r
  | .subString e f fr =>
    binaryBound e && binaryBoundOpt f && binaryBoundOpt fr
  | .position e i => binaryBound e && binaryBound i
  | .trim e t _ => binaryBound e && binaryBoundOpt t
  | .reference e _ => binaryBound e
  | .tuple args => binaryBoundList args
  | .scalaFunction args _ => binaryBoundList args
  | .tableFunction args _ => binaryBoundList args
  | .ifExpr c l r _ => binaryBound c && binaryBound l && binaryBound r
  | .ifNull l r _ => binaryBound l && binaryBound r
  | .nullIf l r _ => binaryBound l && binaryBound r
  | .coalesce es _ => binaryBoundList es
  | .caseWhen o p el _ =>
    binaryBoundOpt o && binaryBoundPairs p && binaryBoundOpt el

/-- The invariant on an alias tag. -/
def binaryBoundAlias : AliasType → Bool
  | .name _ => true
  | .exprA e => binaryBound e

/-- The invariant on a child list. -/
def binaryBoundList : ExprList → Bool
  | .nil => true
  | .cons e es => binaryBound e && binaryBoundList es

/-- The invariant on an optional child. -/
def binaryBoundOpt : OptExpr → Bool
  | .none => true
  | .some e => binaryBound e

/-- The invariant on when/then pairs. -/
def binaryBoundPairs : ExprPairList → Bool
  | .nil => true
  | .cons w t rest => binaryBound w && binaryBound t && binaryBoundPairs rest
end

theorem fn_cast_return_type (e : ScalarExpression) (ty : LogicalType) :
    (BindEvaluator.fn_cast e ty).return_type = ty := by
  unfold BindEvaluator.fn_cast
  split
  · assumption
  · rfl

@[simp]
theorem binaryBound_fn_cast (e : ScalarExpression) (ty : LogicalType) :
    binaryBound (BindEvaluator.fn_cast e ty) = binaryBound e := by
  unfold BindEvaluator.fn_cast
  split
  · rfl
  · simp [binaryBound]

mutual
theorem visit_binaryBound :
    ∀ e e', BindEvaluator.visit e = .ok e' → binaryBound e' = true
  | .constant v, e', h => by
    simp only [BindEvaluator.visit] at h
    injection h with h2
    subst h2
    simp [binaryBound]
  | .columnRef col, e', h => by
    simp only [BindEvaluator.visit] at h
    injection h with h2
    subst h2
    simp [binaryBound]
  | .empty, e', h => by
    simp only [BindEvaluator.visit] at h
    injection h with h2
    subst h2
    simp [binaryBound]
  | .alias expr aliasTy, e', h => by
    simp only [BindEvaluator.visit] at h
    cases h1 : BindEvaluator.visit expr with
    | error err => simp only [h1] at h; exact Except.noConfusion h
    | ok a =>
      simp only [h1] at h
      cases h2 : BindEvaluator.visitAlias aliasTy with
      | error err => simp only [h2] at h; exact Except.noConfusion h
      | ok b =>
        simp only [h2] at h
        injection h with h3
        subst h3
        simp [binaryBound, visit_binaryBound expr a h1,
          visitAlias_binaryBound aliasTy b h2]
  | .typeCast expr ty, e', h => by
    simp only [BindEvaluator.visit] at h
    cases h1 : BindEvaluator.visit expr with
    | error err => simp only [h1] at h; exact Except.noConfusion h
    | ok a =>
      simp only [h1] at h
      injection h with h2
      subst h2
      simp [binaryBound, visit_binaryBound expr a h1]
  | .isNull negated expr, e', h => by
    simp only [BindEvaluator.visit] at h
    cases h1 : BindEvaluator.visit expr with
    | error err => simp only [h1] at h; exact Except.noConfusion h
    | ok a =>
      simp only [h1] at h
      injection h with h2
      subst h2
      simp [binaryBound, visit_binaryBound expr a h1]
  | .unary op expr ev nodeTy, e', h => by
    simp only [BindEvaluator.visit] at h
    cases h1 : BindEvaluator.visit expr with
    | error err => simp only [h1] at h; exact Except.noConfusion h
    | ok a =>
      simp only [h1] at h
      cases h2 : EvaluatorFactory.unary_create a.return_type op with
      | error err => simp only [h2] at h; exact Except.noConfusion h
      | ok uev =>
        simp only [h2] at h
        injection h with h3
        subst h3
        have hb := visit_binaryBound expr a h1
        by_cases hu : a.return_type.is_unsigned_numeric = true <;>
          simp [binaryBound, hu, hb]
  | .binary op leftExpr rightExpr ev nodeTy, e', h => by
    simp only [BindEvaluator.visit] at h
    cases h1 : BindEvaluator.visit leftExpr with
    | error err => simp only [h1] at h; exact Except.noConfusion h
    | ok l' =>
      simp only [h1] at h
      cases h2 : BindEvaluator.visit rightExpr with
      | error err => simp only [h2] at h; exact Except.noConfusion h
      | ok r' =>
        simp only [h2] at h
        cases h3 : LogicalType.max_logical_type l'.return_type r'.return_type with
        | error err => simp only [h3] at h; exact Except.noConfusion h
        | ok ty =>
          simp only [h3] at h
          cases h4 : EvaluatorFactory.binary_create ty op with
          | error err => simp only [h4] at h; exact Except.noConfusion h
          | ok bev =>
            simp only [h4] at h
            injection h with h5
            subst h5
            have hb1 := visit_binaryBound leftExpr l' h1
            have hb2 := visit_binaryBound rightExpr r' h2
            simp [binaryBound, fn_cast_return_type, hb1, hb2, h4,
              LogicalType.max_logical_type_self]
  | .aggCall distinct kind args ty, e', h => by
    simp only [BindEvaluator.visit] at h
    cases h1 : BindEvaluator.visitList args with
    | error err => simp only [h1] at h; exact Except.noConfusion h
    | ok args' =>
      simp only [h1] at h
      injection h with h2
      subst h2
      simp [binaryBound, visitList_binaryBound args args' h1]
  | .inExpr negated expr args, e', h => by
    simp only [BindEvaluator.visit] at h
    cases h1 : BindEvaluator.visit expr with
    | error err => simp only [h1] at h; exact Except.noConfusion h
    | ok a =>
      simp only [h1] at h
      cases h2 : BindEvaluator.visitList args with
      | error err => simp only [h2] at h; exact Except.noConfusion h
      | ok args' =>
        simp only [h2] at h
        injection h with h3
        subst h3
        simp [binaryBound, visit_binaryBound expr a h1,
          visitList_binaryBound args args' h2]
  | .between negated expr leftExpr rightExpr, e', h => by
    simp only [BindEvaluator.visit] at h
    cases h1 : BindEvaluator.visit expr with
    | error err => simp only [h1] at h; exact Except.noConfusion h
    | ok a =>
      simp only [h1] at h
      cases h2 : BindEvaluator.visit leftExpr with
      | error err => simp only [h2] at h; exact Except.noConfusion h
      | ok b =>
        simp only [h2] at h
        cases h3 : BindEvaluator.visit rightExpr with
        | error err => simp only [h3] at h; exact Except.noConfusion h
        | ok c =>
          simp only [h3] at h
          injection h with h4
          subst h4
          simp [binaryBound, visit_binaryBound expr a h1,
            visit_binaryBound leftExpr b h2, visit_binaryBound rightExpr c h3]
  | .subString expr forExpr fromExpr, e', h => by
    simp only [BindEvaluator.visit] at h
    cases h1 : BindEvaluator.visit expr with
    | error err => simp only [h1] at h; exact Except.noConfusion h
    | ok a =>
      simp only [h1] at h
      cases h2 : BindEvaluator.visitOpt forExpr with
      | error err => simp only [h2] at h; exact Except.noConfusion h
      | ok b =>
        simp only [h2] at h
        cases h3 : BindEvaluator.visitOpt fromExpr with
        | error err => simp only [h3] at h; exact Except.noConfusion h
        | ok c =>
          simp only [h3] at h
          injection h with h4
          subst h4
          simp [binaryBound, visit_binaryBound expr a h1,
            visitOpt_binaryBound forExpr b h2, visitOpt_binaryBound fromExpr c h3]
  | .position expr inE, e', h => by
    simp only [BindEvaluator.visit] at h
    cases h1 : BindEvaluator.visit expr with
    | error err => simp only [h1] at h; exact Except.noConfusion h
    | ok a =>
      simp only [h1] at h
      cases h2 : BindEvaluator.visit inE with
      | error err => simp only [h2] at h; exact Except.noConfusion h
      | ok b =>
        simp only [h2] at h
        injection h with h3
        subst h3
        simp [binaryBound, visit_binaryBound expr a h1,
          visit_binaryBound inE b h2]
  | .trim expr trimWhatExpr trimWhere, e', h => by
    simp only [BindEvaluator.visit] at h
    cases h1 : BindEvaluator.visit expr with
    | error err => simp only [h1] at h; exact Except.noConfusion h
    | ok a =>
      simp only [h1] at h
      cases h2 : BindEvaluator.visitOpt trimWhatExpr with
      | error err => simp only [h2] at h; exact Except.noConfusion h
      | ok b =>
        simp only [h2] at h
        injection h with h3
        subst h3
        simp [binaryBound, visit_binaryBound expr a h1,
          visitOpt_binaryBound trimWhatExpr b h2]
  | .reference expr pos, e', h => by
    simp only [BindEvaluator.visit] at h
    cases h1 : BindEvaluator.visit expr with
    | error err => simp only [h1] at h; exact Except.noConfusion h
    | ok a =>
      simp only [h1] at h
      injection h with h2
      subst h2
      simp [binaryBound, visit_binaryBound expr a h1]
  | .tuple args, e', h => by
    simp only [BindEvaluator.visit] at h
    cases h1 : BindEvaluator.visitList args with
    | error err => simp only [h1] at h; exact Except.noConfusion h
    | ok args' =>
      simp only [h1] at h
      injection h with h2
      subst h2
      simp [binaryBound, visitList_binaryBound args args' h1]
  | .scalaFunction args inner, e', h => by
    simp only [BindEvaluator.visit] at h
    cases h1 : BindEvaluator.visitList args with
    | error err => simp only [h1] at h; exact Except.noConfusion h
    | ok args' =>
      simp only [h1] at h
      injection h with h2
      subst h2
      simp [binaryBound, visitList_binaryBound args args' h1]
  | .tableFunction args inner, e', h => by
    simp only [BindEvaluator.visit] at h
    cases h1 : BindEvaluator.visitList args with
    | error err => simp only [h1] at h; exact Except.noConfusion h
    | ok args' =>
      simp only [h1] at h
      injection h with h2
      subst h2
      simp [binaryBound, visitList_binaryBound args args' h1]
  | .ifExpr condition leftExpr rightExpr ty, e', h => by
    simp only [BindEvaluator.visit] at h
    cases h1 : BindEvaluator.visit condition with
    | error err => simp only [h1] at h; exact Except.noConfusion h
    | ok a =>
      simp only [h1] at h
      cases h2 : BindEvaluator.visit leftExpr with
      | error err => simp only [h2] at h; exact Except.noConfusion h
      | ok b =>
        simp only [h2] at h
        cases h3 : BindEvaluator.visit rightExpr with
        | error err => simp only [h3] at h; exact Except.noConfusion h
        | ok c =>
          simp only [h3] at h
          injection h with h4
          subst h4
          simp [binaryBound, visit_binaryBound condition a h1,
            visit_binaryBound leftExpr b h2, visit_binaryBound rightExpr c h3]
  | .ifNull leftExpr rightExpr ty, e', h => by
    simp only [BindEvaluator.visit] at h
    cases h1 : BindEvaluator.visit leftExpr with
    | error err => simp only [h1] at h; exact Except.noConfusion h
    | ok a =>
      simp only [h1] at h
      cases h2 : BindEvaluator.visit rightExpr with
      | error err => simp only [h2] at h; exact Except.noConfusion h
      | ok b =>
        simp only [h2] at h
        injection h with h3
        subst h3
        simp [binaryBound, visit_binaryBound leftExpr a h1,
          visit_binaryBound rightExpr b h2]
  | .nullIf leftExpr rightExpr ty, e', h => by
    simp only [BindEvaluator.visit] at h
    cases h1 : BindEvaluator.visit leftExpr with
    | error err => simp only [h1] at h; exact Except.noConfusion h
    | ok a =>
      simp only [h1] at h
      cases h2 : BindEvaluator.visit rightExpr with
      | error err => simp only [h2] at h; exact Except.noConfusion h
      | ok b =>
        simp only [h2] at h
        injection h with h3
        subst h3
        simp [binaryBound, visit_binaryBound leftExpr a h1,
          visit_binaryBound rightExpr b h2]
  | .coalesce exprs ty, e', h => by
    simp only [BindEvaluator.visit] at h
    cases h1 : BindEvaluator.visitList exprs with
    | error err => simp only [h1] at h; exact Except.noConfusion h
    | ok args' =>
      simp only [h1] at h
      injection h with h2
      subst h2
      simp [binaryBound, visitList_binaryBound exprs args' h1]
  | .caseWhen operandExpr exprPairs elseExpr ty, e', h => by
    simp only [BindEvaluator.visit] at h
    cases h1 : BindEvaluator.visitOpt operandExpr with
    | error err => simp only [h1] at h; exact Except.noConfusion h
    | ok a =>
      simp only [h1] at h
      cases h2 : BindEvaluator.visitPairs exprPairs with
      | error err => simp only [h2] at h; exact Except.noConfusion h
      | ok b =>
        simp only [h2] at h
        cases h3 : BindEvaluator.visitOpt elseExpr with
        | error err => simp only [h3] at h; exact Except.noConfusion h
        | ok c =>
          simp only [h3] at h
          injection h with h4
          subst h4
          simp [binaryBound, visitOpt_binaryBound operandExpr a h1,
            visitPairs_binaryBound exprPairs b h2,
            visitOpt_binaryBound elseExpr c h3]

theorem visitAlias_binaryBound :
    ∀ a a', BindEvaluator.visitAlias a = .ok a' → binaryBoundAlias a' = true
  | .name s, a', h => by
    simp only [BindEvaluator.visitAlias] at h
    injection h with h2
    subst h2
    simp [binaryBoundAlias]
  | .exprA e, a', h => by
    simp only [BindEvaluator.visitAlias] at h
    cases h1 : BindEvaluator.visit e with
    | error err => simp only [h1] at h; exact Except.noConfusion h
    | ok b =>
      simp only [h1] at h
      injection h with h2
      subst h2
      simp [binaryBoundAlias, visit_binaryBound e b h1]

theorem visitList_binaryBound :
    ∀ es es', BindEvaluator.visitList es = .ok es' →
      binaryBoundList es' = true
  | .nil, es', h => by
    simp only [BindEvaluator.visitList] at h
    injection h with h2
    subst h2
    simp [binaryBoundList]
  | .cons e es, es', h => by
    simp only [BindEvaluator.visitList] at h
    cases h1 : BindEvaluator.visit e with
    | error err => simp only [h1] at h; exact Except.noConfusion h
    | ok a =>
      simp only [h1] at h
      cases h2 : BindEvaluator.visitList es with
      | error err => simp only [h2] at h; exact Except.noConfusion h
      | ok b =>
        simp only [h2] at h
        injection h with h3
        subst h3
        simp [binaryBoundList, visit_binaryBound e a h1,
          visitList_binaryBound es b h2]

theorem visitOpt_binaryBound :
    ∀ o o', BindEvaluator.visitOpt o = .ok o' → binaryBoundOpt o' = true
  | .none, o', h => by
    simp only [BindEvaluator.visitOpt] at h
    injection h with h2
    subst h2
    simp [binaryBoundOpt]
  | .some e, o', h => by
    simp only [BindEvaluator.visitOpt] at h
    cases h1 : BindEvaluator.visit e with
    | error err => simp only [h1] at h; exact Except.noConfusion h
    | ok a =>
      simp only [h1] at h
      injection h with h2
      subst h2
      simp [binaryBoundOpt, visit_binaryBound e a h1]

theorem visitPairs_binaryBound :
    ∀ ps ps', BindEvaluator.visitPairs ps = .ok ps' →
      binaryBoundPairs ps' = true
  | .nil, ps', h => by
    simp only [BindEvaluator.visitPairs] at h
    injection h with h2
    subst h2
    simp [binaryBoundPairs]
  | .cons w t rest, ps', h => by
    simp only [BindEvaluator.visitPairs] at h
    cases h1 : BindEvaluator.visit w with
    | error err => simp only [h1] at h; exact Except.noConfusion h
    | ok a =>
      simp only [h1] at h
      cases h2 : BindEvaluator.visit t with
      | error err => simp only [h2] at h; exact Except.noConfusion h
      | ok b =>
        simp only [h2] at h
        cases h3 : BindEvaluator.visitPairs rest with
        | error err => simp only [h3] at h; exact Except.noConfusion h
        | ok c =>
          simp only [h3] at h
          injection h with h4
          subst h4
          simp [binaryBoundPairs, visit_binaryBound w a h1,
            visit_binaryBound t b h2, visitPairs_binaryBound rest c h3]
end

/-- C3, counterexample. After `BindEvaluator` succeeds on the comparison
`1 < 2` (node type `Boolean`), the cached evaluator is the `Int32` less
than evaluator, created for the `max_logical_type` `Integer` of the two
sides — but the return type of the node is `Boolean`, and `binary_create`
at the node return type does not even yield an evaluator. The conjunct
claiming that the cached evaluator type equals the return type of the
node is therefore false. -/
theorem C3_counterexample_comparison_type :
    BindEvaluator.visit
        (.binary .lt (.constant (.int32 1)) (.constant (.int32 2))
          none .boolean) =
      .ok (.binary .lt (.constant (.int32 1)) (.constant (.int32 2))
        (some (.numeric .int32 .lt)) .boolean) ∧
    EvaluatorFactory.binary_create .integer .lt =
      .ok (.numeric .int32 .lt) ∧
    (ScalarExpression.binary .lt (.constant (.int32 1))
        (.constant (.int32 2)) (some (.numeric .int32 .lt))
        .boolean).return_type = .boolean ∧
    EvaluatorFactory.binary_create
        ((ScalarExpression.binary .lt (.constant (.int32 1))
          (.constant (.int32 2)) (some (.numeric .int32 .lt))
          .boolean).return_type) .lt =
      .error (.unsupportedBinaryOperator .boolean .lt) ∧
    (LogicalType.integer ≠ .boolean) := by
  refine ⟨rfl, rfl, rfl, rfl, by decide⟩

/-- C3, amended. After the `BindEvaluator` pass succeeds on an expression
tree, every `Binary` node satisfies: the left and right return types are
equal, that common type is the `max_logical_type` of the two sides, and
the cached evaluator is exactly the one created for that type — but the
return type of the node itself is left untouched by the pass, so for
comparison nodes it stays `Boolean` and differs from the type the cached
evaluator was created for. -/
theorem C3_bind_evaluator_type_promotion (e e' : ScalarExpression)
    (h : BindEvaluator.visit e = .ok e') : binaryBound e' = true :=
  visit_binaryBound e e' h

theorem C3_bind_evaluator_type_promotion_witness :
    binaryBound
      (.binary .plus (.constant (.int32 1)) (.constant (.int32 2))
        (some (.numeric .int32 .plus)) .integer) = true :=
  C3_bind_evaluator_type_promotion
    (.binary .plus (.constant (.int32 1)) (.constant (.int32 2))
      none .integer)
    (.binary .plus (.constant (.int32 1)) (.constant (.int32 2))
      (some (.numeric .int32 .plus)) .integer)
    rfl

/-- C4. Unary minus over an unsigned operand: `visit_unary` wraps the
operand in a `TypeCast` to the signed counterpart but then calls
`unary_create` with the original unsigned type, which has no dispatch
arm, so the pass fails with `UnsupportedUnaryOperator` instead of binding
an evaluator. The claim describes the evident intent (calling
`unary_create` with the signed type would succeed, last conjunct); the
code is the slip. -/
theorem C4_unsigned_unary_bind_fails :
    BindEvaluator.visit
        (.unary .minus (.constant (.uint32 1)) none .integer) =
      .error (.unsupportedUnaryOperator .uInteger .minus) ∧
    EvaluatorFactory.unary_create .uInteger .minus =
      .error (.unsupportedUnaryOperator .uInteger .minus) ∧
    EvaluatorFactory.unary_create
        (LogicalType.signedOfUnsigned .uInteger) .minus =
      .ok (.numericMinus .int32) := by
  refine ⟨rfl, rfl, rfl⟩

/-! ### The HasCountStar visitor -/

/-- The condition set by the `HasCountStar::visit_agg` hook
(`src/expression/mod.rs`): the argument list has exactly one element,
that element is a constant, and its string payload is an asterisk. The
aggregate kind is not inspected by the hook. -/
def isStarAggNode : ScalarExpression → Bool
  | .aggCall _ _ (.cons (.constant v) .nil) _ => v.utf8? == some "*"
  | _ => false

/-- The property the claim states: the node is an aggregate call of kind
`Count` whose argument list is exactly the constant string asterisk. -/
def isCountStarNode : ScalarExpression → Bool
  | .aggCall _ .count (.cons (.constant v) .nil) _ => v.utf8? == some "*"
  | _ => false

namespace HasCountStar

mutual
/-- Embedding of `HasCountStar::visit` (`src/expression/mod.rs`): the
walk only proceeds while the flag is still false (a true flag returns
unchanged). The default walker of `expression/visitor.rs` is not among
the sources at hand and is modelled from the spec — it dispatches the
`visit_agg` hook on aggregate calls and recurses into every child,
threading the flag left to right; it is inlined into the false branch
here so that the recursion is structural. -/
def visit : Bool → ScalarExpression → Bool
  | true, _ => true
  | false, .constant _ => false
  | false, .columnRef _ => false
  | false, .empty => false
  | false, .alias e a => visitAlias (visit false e) a
  | false, .typeCast e _ => visit false e
  | false, .isNull _ e => visit false e
  | false, .unary _ e _ _ => visit false e
  | false, .binary _ l r _ _ => visit (visit false l) r
  | false, .aggCall _ _ args _ =>
    let value1 :=
      match args with
      | .cons (.constant v) .nil => v.utf8? == some "*"
      | _ => false
    visitList value1 args
  | false, .inExpr _ e args => visitList (visit false e) args
  | false, .between _ e l r => visit (visit (visit false e) l) r
  | false, .subString e f fr => visitOpt (visitOpt (visit false e) f) fr
  | false, .position e i => visit (visit false e) i
  | false, .trim e t _ => visitOpt (visit false e) t
  | false, .reference e _ => visit false e
  | false, .tuple args => visitList false args
  | false, .scalaFunction args _ => visitList false args
  | false, .tableFunction args _ => visitList false args
  | false, .ifExpr c l r _ => visit (visit (visit false c) l) r
  | false, .ifNull l r _ => visit (visit false l) r
  | false, .nullIf l r _ => visit (visit false l) r
  | false, .coalesce es _ => visitList false es
  | false, .caseWhen o p el _ => visitOpt (visitPairs (visitOpt false o) p) el

/-- The walk over an alias tag. -/
def visitAlias : Bool → AliasType → Bool
  | value, .name _ => value
  | value, .exprA e => visit value e

/-- The walk over a child list. -/
def visitList : Bool → ExprList → Bool
  | value, .nil => value
  | value, .cons e es => visitList (visit value e) es

/-- The walk over an optional child. -/
def visitOpt : Bool → OptExpr → Bool
  | value, .none => value
  | value, .some e => visit value e

/-- The walk over when/then pairs. -/
def visitPairs : Bool → ExprPairList → Bool
  | value, .nil => value
  | value, .cons w t rest => visitPairs (visit (visit value w) t) rest
end

end HasCountStar

mutual
/-- Whether a tree contains a node satisfying `isStarAggNode` (an
aggregate call, of any kind, whose single argument is the constant
string asterisk). -/
def containsStarAggregate : ScalarExpression → Bool
  | .constant _ => false
  | .columnRef _ => false
  | .empty => false
  | .alias e1 a => containsStarAggregate e1 || containsStarAggregateAlias a
  | .typeCast e1 _ => containsStarAggregate e1
  | .isNull _ e1 => containsStarAggregate e1
  | .unary _ e1 _ _ => containsStarAggregate e1
  | .binary _ l r _ _ => containsStarAggregate l || containsStarAggregate r
  | .aggCall d k args ty =>
    isStarAggNode (.aggCall d k args ty) || containsStarAggregateList args
  | .inExpr _ e1 args =>
    containsStarAggregate e1 || containsStarAggregateList args
  | .between _ e1 l r =>
    containsStarAggregate e1 || containsStarAggregate l
      || containsStarAggregate r
  | .subString e1 f fr =>
    containsStarAggregate e1 || containsStarAggregateOpt f
      || containsStarAggregateOpt fr
  | .position e1 i => containsStarAggregate e1 || containsStarAggregate i
  | .trim e1 t _ => containsStarAggregate e1 || containsStarAggregateOpt t
  | .reference e1 _ => containsStarAggregate e1
  | .tuple args => containsStarAggregateList args
  | .scalaFunction args _ => containsStarAggregateList args
  | .tableFunction args _ => containsStarAggregateList args
  | .ifExpr c l r _ =>
    containsStarAggregate c || containsStarAggregate l
      || containsStarAggregate r
  | .ifNull l r _ => containsStarAggregate l || containsStarAggregate r
  | .nullIf l r _ => containsStarAggregate l || containsStarAggregate r
  | .coalesce es _ => containsStarAggregateList es
  | .caseWhen o p el _ =>
    containsStarAggregateOpt o || containsStarAggregatePairs p
      || containsStarAggregateOpt el

/-- Containment over an alias tag. -/
def containsStarAggregateAlias : AliasType → Bool
  | .name _ => false
  | .exprA e => containsStarAggregate e

/-- Containment over a child list. -/
def containsStarAggregateList : ExprList → Bool
  | .nil => false
  | .cons e es => containsStarAggregate e || containsStarAggregateList es

/-- Containment over an optional child. -/
def containsStarAggregateOpt : OptExpr → Bool
  | .none => false
  | .some e => containsStarAggregate e

/-- Containment over when/then pairs. -/
def containsStarAggregatePairs : ExprPairList → Bool
  | .nil => false
  | .cons w t rest =>
    containsStarAggregate w || containsStarAggregate t
      || containsStarAggregatePairs rest
end

mutual
/-- Whether a tree contains a node satisfying `isCountStarNode` — the
claim side reading of containment, with the `Count` kind required. -/
def containsCountStar : ScalarExpression → Bool
  | .constant _ => false
  | .columnRef _ => false
  | .empty => false
  | .alias e1 a => containsCountStar e1 || containsCountStarAlias a
  | .typeCast e1 _ => containsCountStar e1
  | .isNull _ e1 => containsCountStar e1
  | .unary _ e1 _ _ => containsCountStar e1
  | .binary _ l r _ _ => containsCountStar l || containsCountStar r
  | .aggCall d k args ty =>
    isCountStarNode (.aggCall d k args ty) || containsCountStarList args
  | .inExpr _ e1 args => containsCountStar e1 || containsCountStarList args
  | .between _ e1 l r =>
    containsCountStar e1 || containsCountStar l || containsCountStar r
  | .subString e1 f fr =>
    containsCountStar e1 || containsCountStarOpt f || containsCountStarOpt fr
  | .position e1 i => containsCountStar e1 || containsCountStar i
  | .trim e1 t _ => containsCountStar e1 || containsCountStarOpt t
  | .reference e1 _ => containsCountStar e1
  | .tuple args => containsCountStarList args
  | .scalaFunction args _ => containsCountStarList args
  | .tableFunction args _ => containsCountStarList args
  | .ifExpr c l r _ =>
    containsCountStar c || containsCountStar l || containsCountStar r
  | .ifNull l r _ => containsCountStar l || containsCountStar r
  | .nullIf l r _ => containsCountStar l || containsCountStar r
  | .coalesce es _ => containsCountStarList es
  | .caseWhen o p el _ =>
    containsCountStarOpt o || containsCountStarPairs p
      || containsCountStarOpt el

/-- Count-star containment over an alias tag. -/
def containsCountStarAlias : AliasType → Bool
  | .name _ => false
  | .exprA e => containsCountStar e

/-- Count-star containment over a child list. -/
def containsCountStarList : ExprList → Bool
  | .nil => false
  | .cons e es => containsCountStar e || containsCountStarList es

/-- Count-star containment over an optional child. -/
def containsCountStarOpt : OptExpr → Bool
  | .none => false
  | .some e => containsCountStar e

/-- Count-star containment over when/then pairs. -/
def containsCountStarPairs : ExprPairList → Bool
  | .nil => false
  | .cons w t rest =>
    containsCountStar w || containsCountStar t || containsCountStarPairs rest
end

mutual
theorem hcs_visit_spec :
    ∀ e (value : Bool),
      HasCountStar.visit value e = (value || containsStarAggregate e)
  | .constant v, value => by
    cases value <;>
      simp [HasCountStar.visit, containsStarAggregate]
  | .columnRef col, value => by
    cases value <;>
      simp [HasCountStar.visit, containsStarAggregate]
  | .empty, value => by
    cases value <;>
      simp [HasCountStar.visit, containsStarAggregate]
  | .alias e1 a, value => by
    cases value <;>
      simp [HasCountStar.visit, containsStarAggregate,
        hcs_visit_spec e1, hcs_visitAlias_spec a, Bool.or_assoc]
  | .typeCast e1 ty, value => by
    cases value <;>
      simp [HasCountStar.visit, containsStarAggregate,
        hcs_visit_spec e1]
  | .isNull negated e1, value => by
    cases value <;>
      simp [HasCountStar.visit, containsStarAggregate,
        hcs_visit_spec e1]
  | .unary op e1 ev ty, value => by
    cases value <;>
      simp [HasCountStar.visit, containsStarAggregate,
        hcs_visit_spec e1]
  | .binary op l r ev ty, value => by
    cases value <;>
      simp [HasCountStar.visit, containsStarAggregate,
        hcs_visit_spec l, hcs_visit_spec r, Bool.or_assoc]
  | .aggCall d k args ty, value => by
    have hlist := hcs_visitList_spec args
    cases value with
    | false =>
      cases args with
      | nil =>
        simp [HasCountStar.visit, containsStarAggregate,
          isStarAggNode, hlist]
      | cons head tl =>
        cases head <;> cases tl <;>
          simp [HasCountStar.visit, containsStarAggregate,
            isStarAggNode, hlist, Bool.or_assoc]
    | true => simp [HasCountStar.visit]
  | .inExpr negated e1 args, value => by
    cases value <;>
      simp [HasCountStar.visit, containsStarAggregate,
        hcs_visit_spec e1, hcs_visitList_spec args, Bool.or_assoc]
  | .between negated e1 l r, value => by
    cases value <;>
      simp [HasCountStar.visit, containsStarAggregate,
        hcs_visit_spec e1, hcs_visit_spec l, hcs_visit_spec r, Bool.or_assoc]
  | .subString e1 f fr, value => by
    cases value <;>
      simp [HasCountStar.visit, containsStarAggregate,
        hcs_visit_spec e1, hcs_visitOpt_spec f, hcs_visitOpt_spec fr,
        Bool.or_assoc]
  | .position e1 i, value => by
    cases value <;>
      simp [HasCountStar.visit, containsStarAggregate,
        hcs_visit_spec e1, hcs_visit_spec i, Bool.or_assoc]
  | .trim e1 t tw, value => by
    cases value <;>
      simp [HasCountStar.visit, containsStarAggregate,
        hcs_visit_spec e1, hcs_visitOpt_spec t, Bool.or_assoc]
  | .reference e1 pos, value => by
    cases value <;>
      simp [HasCountStar.visit, containsStarAggregate,
        hcs_visit_spec e1]
  | .tuple args, value => by
    cases value <;>
      simp [HasCountStar.visit, containsStarAggregate,
        hcs_visitList_spec args]
  | .scalaFunction args inner, value => by
    cases value <;>
      simp [HasCountStar.visit, containsStarAggregate,
        hcs_visitList_spec args]
  | .tableFunction args inner, value => by
    cases value <;>
      simp [HasCountStar.visit, containsStarAggregate,
        hcs_visitList_spec args]
  | .ifExpr c l r ty, value => by
    cases value <;>
      simp [HasCountStar.visit, containsStarAggregate,
        hcs_visit_spec c, hcs_visit_spec l, hcs_visit_spec r, Bool.or_assoc]
  | .ifNull l r ty, value => by
    cases value <;>
      simp [HasCountStar.visit, containsStarAggregate,
        hcs_visit_spec l, hcs_visit_spec r, Bool.or_assoc]
  | .nullIf l r ty, value => by
    cases value <;>
      simp [HasCountStar.visit, containsStarAggregate,
        hcs_visit_spec l, hcs_visit_spec r, Bool.or_assoc]
  | .coalesce es ty, value => by
    cases value <;>
      simp [HasCountStar.visit, containsStarAggregate,
        hcs_visitList_spec es]
  | .caseWhen o p el ty, value => by
    cases value <;>
      simp [HasCountStar.visit, containsStarAggregate,
        hcs_visitOpt_spec o, hcs_visitPairs_spec p, hcs_visitOpt_spec el,
        Bool.or_assoc]

theorem hcs_visitAlias_spec :
    ∀ a (value : Bool),
      HasCountStar.visitAlias value a = (value || containsStarAggregateAlias a)
  | .name s, value => by
    simp [HasCountStar.visitAlias, containsStarAggregateAlias]
  | .exprA e, value => by
    simp [HasCountStar.visitAlias, containsStarAggregateAlias,
      hcs_visit_spec e]

theorem hcs_visitList_spec :
    ∀ es (value : Bool),
      HasCountStar.visitList value es = (value || containsStarAggregateList es)
  | .nil, value => by
    simp [HasCountStar.visitList, containsStarAggregateList]
  | .cons e es, value => by
    simp [HasCountStar.visitList, containsStarAggregateList,
      hcs_visit_spec e, hcs_visitList_spec es, Bool.or_assoc]

theorem hcs_visitOpt_spec :
    ∀ o (value : Bool),
      HasCountStar.visitOpt value o = (value || containsStarAggregateOpt o)
  | .none, value => by
    simp [HasCountStar.visitOpt, containsStarAggregateOpt]
  | .some e, value => by
    simp [HasCountStar.visitOpt, containsStarAggregateOpt, hcs_visit_spec e]

theorem hcs_visitPairs_spec :
    ∀ ps (value : Bool),
      HasCountStar.visitPairs value ps =
        (value || containsStarAggregatePairs ps)
  | .nil, value => by
    simp [HasCountStar.visitPairs, containsStarAggregatePairs]
  | .cons w t rest, value => by
    simp [HasCountStar.visitPairs, containsStarAggregatePairs,
      hcs_visit_spec w, hcs_visit_spec t, hcs_visitPairs_spec rest,
      Bool.or_assoc]
end

/-- C8, counterexample. The `visit_agg` hook never inspects the aggregate
kind: visiting `Avg("*")` (kind `Avg`, a single constant asterisk
argument) sets the flag to true, although the tree contains no aggregate
call of kind `Count` with that argument — so the stated iff fails. -/
theorem C8_counterexample_kind_ignored :
    HasCountStar.visit false
        (.aggCall false .avg
          (.cons (.constant (.utf8 "*" (.variable none) .characters)) .nil)
          .double) = true ∧
    containsCountStar
        (.aggCall false .avg
          (.cons (.constant (.utf8 "*" (.variable none) .characters)) .nil)
          .double) = false := by
  refine ⟨rfl, rfl⟩

/-- C8, amended. After a `HasCountStar` visitor initialised with false
visits a tree, its value is true if and only if the tree contains an
aggregate call — of any kind, the hook does not check the kind — whose
argument list is exactly one constant string literal asterisk. -/
theorem C8_has_count_star (e : ScalarExpression) :
    HasCountStar.visit false e = containsStarAggregate e := by
  simpa using hcs_visit_spec e false

/-! ### Column pruning: the aggregate arm (claim C5) -/

namespace ColumnPruning

/-- Embedding of `ColumnPruning::clear_exprs` from
`src/optimizer/rule/normalization/column_pruning.rs`: retain an
expression when its output column is in the reference set, or when any of
its referenced columns is (the `HashSet<&ColumnSummary>` is embedded as a
list of summaries). -/
def clear_exprs (column_references : List ColumnSummary)
    (exprs : List ScalarExpression) : List ScalarExpression :=
  exprs.filter fun expr =>
    column_references.contains expr.output_column.summary
      || (expr.referenced_columns false).any fun column =>
        column_references.contains column.summary

/-- The aggregate call synthesized by the `Aggregate` arm of
`ColumnPruning::_apply`: `COUNT` (not distinct) of the constant string
asterisk (`Utf8Type::Variable(None)`, `CharLengthUnits::Characters`),
with result type `Integer`. -/
def countStarAggCall : ScalarExpression :=
  .aggCall false .count
    (.cons (.constant (.utf8 "*" (.variable none) .characters)) .nil)
    .integer

/-- Embedding of the mutation the `Operator::Aggregate` arm of
`ColumnPruning::_apply` performs on `op.agg_calls`
(`src/optimizer/rule/normalization/column_pruning.rs` lines 56 to 75):
when not `all_referenced`, drop unreferenced aggregate calls, and if the
aggregate is now empty and has no group-by push a single synthesized
`COUNT("*")`. -/
def pruneAggCalls (column_references : List ColumnSummary)
    (all_referenced : Bool)
    (agg_calls groupby_exprs : List ScalarExpression) :
    List ScalarExpression :=
  if !all_referenced then
    let cleared := clear_exprs column_references agg_calls
    if cleared.isEmpty && groupby_exprs.isEmpty then [countStarAggCall]
    else cleared
  else agg_calls

end ColumnPruning

/-- C5. When the `ColumnPruning` rule visits an `Aggregate` with
`all_referenced` false and, after dropping the aggregate calls whose
output column is not referenced, both the aggregate calls and the
group-by expressions are empty, the operator is left holding exactly one
synthesized `COUNT` call: not distinct, single argument the constant
string asterisk, result type `Integer`. -/
theorem C5_count_star_synthesis (column_references : List ColumnSummary)
    (agg_calls groupby_exprs : List ScalarExpression)
    (hclear : ColumnPruning.clear_exprs column_references agg_calls = [])
    (hgroup : groupby_exprs = []) :
    ColumnPruning.pruneAggCalls column_references false agg_calls
        groupby_exprs =
      [.aggCall false .count
        (.cons (.constant (.utf8 "*" (.variable none) .characters)) .nil)
        .integer] := by
  simp [ColumnPruning.pruneAggCalls, hclear, hgroup,
    ColumnPruning.countStarAggCall]

theorem C5_count_star_synthesis_witness :
    ColumnPruning.pruneAggCalls []
        false
        [.aggCall false .sum
          (.cons (.columnRef (ColumnCatalog.new "c2" true
            { datatype := .integer, primary := Option.none,
              unique := false })) .nil) .integer]
        [] =
      [.aggCall false .count
        (.cons (.constant (.utf8 "*" (.variable none) .characters)) .nil)
        .integer] :=
  C5_count_star_synthesis []
    [.aggCall false .sum
      (.cons (.columnRef (ColumnCatalog.new "c2" true
        { datatype := .integer, primary := Option.none,
          unique := false })) .nil) .integer]
    [] rfl rfl

/-! ### Binding ALTER TABLE (claim C9) -/

/-- Model of a parsed column definition (external crate); its content is
only ever consumed through the binder collaborator `bind_column`. -/
structure ColumnDef where
  name : String
  ty : LogicalType
deriving DecidableEq, Repr

/-- Model of the `sqlparser::ast::AlterTableOperation` variants relevant
to `Binder::bind_alter_table` (`sqlparser` is an external crate): add
column, drop column, and a catch-all for every other alter operation
carrying its debug rendering. -/
inductive AlterTableOperation where
  | addColumn (ifNotExists : Bool) (columnDef : ColumnDef)
  | dropColumn (columnName : String) (ifExists : Bool)
  | other (debugDescr : String)
deriving DecidableEq, Repr

/-- Model of the table catalog entry handed to the table-scan builder. -/
structure TableCatalog where
  columns : List ColumnRef
deriving DecidableEq, Repr

/-- Model of `AddColumnOperator` (`planner/operator/alter_table/`; the
fields appear in `src/binder/alter_table.rs`). -/
structure AddColumnOperator where
  table_name : String
  if_not_exists : Bool
  column : ColumnRef
deriving DecidableEq, Repr

/-- Model of `DropColumnOperator` (fields per `src/binder/alter_table.rs`). -/
structure DropColumnOperator where
  table_name : String
  if_exists : Bool
  column_name : String
deriving DecidableEq, Repr

/-- Model of `FilterOperator` (`planner/operator/filter.rs`, not among
the sources at hand): the predicate, the having flag, and the
`is_optimized` flag used by `SimplifyFilter`. -/
structure FilterOperator where
  predicate : ScalarExpression
  having : Bool
  is_optimized : Bool
deriving DecidableEq, Repr

/-- Reduced model of the `Operator` enum (spec section 3 lists the full
variant set; only the variants the embedded code constructs or inspects
are carried, plus `dummy` standing for every other operator). -/
inductive Operator where
  | tableScan (table_name : String) (columns : List ColumnRef)
  | addColumn (op : AddColumnOperator)
  | dropColumn (op : DropColumnOperator)
  | filter (op : FilterOperator)
  | dummy
deriving DecidableEq, Repr

mutual
/-- Model of `LogicalPlan`: an operator with a children discriminator
(spec section 3). -/
inductive LogicalPlan where
  | mk (operator : Operator) (childrens : Childrens)
deriving DecidableEq, Repr

/-- Model of the `Childrens` discriminator (spec section 3). -/
inductive Childrens where
  | none
  | only (plan : LogicalPlan)
  | twins (left right : LogicalPlan)
  | many (plans : PlanList)
deriving DecidableEq, Repr

/-- Cons-list of plans, mutual with `LogicalPlan`. -/
inductive PlanList where
  | nil
  | cons (p : LogicalPlan) (ps : PlanList)
deriving DecidableEq, Repr
end

/-- Modelled from the spec: `TableScanOperator::build(table_name, table,
with_pk)` (`planner/operator/table_scan.rs`, not among the sources at
hand) — a table-scan plan over the columns of the table. -/
def TableScanOperator.build (table_name : String) (table : TableCatalog)
    (_with_pk : Bool) : LogicalPlan :=
  .mk (.tableScan table_name table.columns) .none

/-- Embedding of `Binder::bind_alter_table` from
`src/binder/alter_table.rs`. The binder collaborators that are not among
the sources at hand are passed as functions: `tableLookup` models
`self.context.table` (a missing table is `TableNotFound`), `bindColumn`
models `self.bind_column` and `isValidIdentifier` models
`is_valid_identifier`; the table name is taken already lowered
(`lower_case_name`). -/
def Binder.bind_alter_table
    (tableLookup : String → Option TableCatalog)
    (bindColumn : ColumnDef → Except DatabaseError ColumnRef)
    (isValidIdentifier : String → Bool)
    (table_name : String) (operation : AlterTableOperation) :
    Except DatabaseError LogicalPlan :=
  match tableLookup table_name with
  | Option.none => .error .tableNotFound
  | Option.some table =>
    match operation with
    | .addColumn if_not_exists columnDef =>
      let plan := TableScanOperator.build table_name table true
      match bindColumn columnDef with
      | .error err => .error err
      | .ok column =>
        if !isValidIdentifier column.summary.name then
          .error (.invalidColumn "illegal column naming")
        else
          .ok (.mk (.addColumn
            { table_name := table_name, if_not_exists := if_not_exists,
              column := column }) (.only plan))
    | .dropColumn column_name if_exists =>
      let plan := TableScanOperator.build table_name table true
      .ok (.mk (.dropColumn
        { table_name := table_name, if_exists := if_exists,
          column_name := column_name }) (.only plan))
    | .other debugDescr =>
      .error (.unsupportedStmt ("AlertOperation: " ++ debugDescr))

/-- C9, counterexample. On an existing table, an `AddColumn` operation
whose column definition fails to bind makes `bind_alter_table` return
that error rather than a plan, so the claim that `AddColumn` on an
existing table always yields a plan is false (the `?` on `bind_column`
and the `is_valid_identifier` check are visible in
`src/binder/alter_table.rs`). -/
theorem C9_counterexample_add_column_bind_error :
    (fun (_ : String) => Option.some (TableCatalog.mk [])) "t1" =
      Option.some (TableCatalog.mk []) ∧
    Binder.bind_alter_table
        (fun _ => Option.some (TableCatalog.mk []))
        (fun _ => .error (.invalidColumn "boom"))
        (fun _ => true)
        "t1" (.addColumn false { name := "c9", ty := .integer }) =
      .error (.invalidColumn "boom") := by
  exact ⟨rfl, rfl⟩

/-- C9, amended. For every ALTER TABLE statement on an existing table:
an operation that is neither `AddColumn` nor `DropColumn` yields
`UnsupportedStmt` and no plan; `DropColumn` yields a plan whose root is
the `DropColumn` operator over a table-scan child; and `AddColumn` yields
a plan whose root is the `AddColumn` operator over a table-scan child
provided the column definition binds successfully and its name is a
valid identifier (otherwise the bind error or `InvalidColumn` is
returned). -/
theorem C9_bind_alter_table
    (tableLookup : String → Option TableCatalog)
    (bindColumn : ColumnDef → Except DatabaseError ColumnRef)
    (isValidIdentifier : String → Bool)
    (table_name : String) (operation : AlterTableOperation)
    (table : TableCatalog)
    (htable : tableLookup table_name = Option.some table) :
    (∀ d, operation = .other d →
      Binder.bind_alter_table tableLookup bindColumn isValidIdentifier
          table_name operation =
        .error (.unsupportedStmt ("AlertOperation: " ++ d))) ∧
    (∀ column_name if_exists,
      operation = .dropColumn column_name if_exists →
      Binder.bind_alter_table tableLookup bindColumn isValidIdentifier
          table_name operation =
        .ok (.mk (.dropColumn
          { table_name := table_name, if_exists := if_exists,
            column_name := column_name })
          (.only (TableScanOperator.build table_name table true)))) ∧
    (∀ if_not_exists columnDef column,
      operation = .addColumn if_not_exists columnDef →
      bindColumn columnDef = .ok column →
      isValidIdentifier column.summary.name = true →
      Binder.bind_alter_table tableLookup bindColumn isValidIdentifier
          table_name operation =
        .ok (.mk (.addColumn
          { table_name := table_name, if_not_exists := if_not_exists,
            column := column })
          (.only (TableScanOperator.build table_name table true)))) := by
  refine ⟨?_, ?_, ?_⟩
  · rintro d rfl
    simp [Binder.bind_alter_table, htable]
  · rintro column_name if_exists rfl
    simp [Binder.bind_alter_table, htable]
  · rintro if_not_exists columnDef column rfl hbind hvalid
    simp [Binder.bind_alter_table, htable, hbind, hvalid]

theorem C9_bind_alter_table_witness :
    (∀ d, (AlterTableOperation.dropColumn "c2" false) = .other d →
      Binder.bind_alter_table
          (fun _ => Option.some (TableCatalog.mk []))
          (fun cd => .ok (ColumnCatalog.new cd.name true
            { datatype := cd.ty, primary := Option.none, unique := false }))
          (fun _ => true)
          "t1" (.dropColumn "c2" false) =
        .error (.unsupportedStmt ("AlertOperation: " ++ d))) ∧
    (∀ column_name if_exists,
      (AlterTableOperation.dropColumn "c2" false) =
        .dropColumn column_name if_exists →
      Binder.bind_alter_table
          (fun _ => Option.some (TableCatalog.mk []))
          (fun cd => .ok (ColumnCatalog.new cd.name true
            { datatype := cd.ty, primary := Option.none, unique := false }))
          (fun _ => true)
          "t1" (.dropColumn "c2" false) =
        .ok (.mk (.dropColumn
          { table_name := "t1", if_exists := if_exists,
            column_name := column_name })
          (.only (TableScanOperator.build "t1" (TableCatalog.mk []) true)))) ∧
    (∀ if_not_exists columnDef column,
      (AlterTableOperation.dropColumn "c2" false) =
        .addColumn if_not_exists columnDef →
      ((fun (cd : ColumnDef) => .ok (ColumnCatalog.new cd.name true
          { datatype := cd.ty, primary := Option.none,
            unique := false })
        : ColumnDef → Except DatabaseError ColumnRef)) columnDef =
        .ok column →
      (fun (_ : String) => true) column.summary.name = true →
      Binder.bind_alter_table
          (fun _ => Option.some (TableCatalog.mk []))
          (fun cd => .ok (ColumnCatalog.new cd.name true
            { datatype := cd.ty, primary := Option.none, unique := false }))
          (fun _ => true)
          "t1" (.dropColumn "c2" false) =
        .ok (.mk (.addColumn
          { table_name := "t1", if_not_exists := if_not_exists,
            column := column })
          (.only (TableScanOperator.build "t1" (TableCatalog.mk []) true)))) :=
  C9_bind_alter_table
    (fun _ => Option.some (TableCatalog.mk []))
    (fun cd => .ok (ColumnCatalog.new cd.name true
      { datatype := cd.ty, primary := Option.none, unique := false }))
    (fun _ => true)
    "t1" (.dropColumn "c2" false) (TableCatalog.mk []) rfl

/-! ### Constant unpacking (`src/expression/simplify.rs`) -/

mutual
/-- Embedding of `ScalarExpression::unpack_val` from
`src/expression/simplify.rs`: the constant value an expression folds to,
when its shape allows it. -/
def ScalarExpression.unpack_val : ScalarExpression → Option DataValue
  | .constant val => some val
  | .alias expr _ => expr.unpack_val
  | .typeCast expr ty =>
    match expr.unpack_val with
    | Option.none => Option.none
    | Option.some val =>
      match val.cast ty with
      | .ok v => some v
      | .error _ => Option.none
  | .isNull _ expr =>
    match expr.unpack_val with
    | Option.none => Option.none
    | Option.some val => some (.boolean val.isNull)
  | .unary op expr evaluator ty =>
    match expr.unpack_val with
    | Option.none => Option.none
    | Option.some value =>
      match evaluator with
      | Option.some ev => some (ev.unary_eval value)
      | Option.none =>
        match EvaluatorFactory.unary_create ty op with
        | .ok ev => some (ev.unary_eval value)
        | .error _ => Option.none
  | .binary op leftExpr rightExpr evaluator ty =>
    match leftExpr.unpack_val with
    | Option.none => Option.none
    | Option.some left =>
      match rightExpr.unpack_val with
      | Option.none => Option.none
      | Option.some right =>
        match (if left.logicalType = ty then .ok left else left.cast ty) with
        | .error _ => Option.none
        | .ok left2 =>
          match
            (if right.logicalType = ty then .ok right else right.cast ty) with
          | .error _ => Option.none
          | .ok right2 =>
            match
              (match evaluator with
               | Option.some ev => ev.binary_eval left2 right2
               | Option.none =>
                 match EvaluatorFactory.binary_create ty op with
                 | .ok ev => ev.binary_eval left2 right2
                 | .error err => .error err) with
            | .ok value => some value
            | .error _ => Option.none
  | _ => Option.none
end

/-- Embedding of `ScalarExpression::unpack_col` from
`src/expression/simplify.rs`: the column an expression tracks; inside a
binary node only when `is_deep`. -/
def ScalarExpression.unpack_col : ScalarExpression → Bool → Option ColumnRef
  | .columnRef col, _ => some col
  | .alias expr _, is_deep => expr.unpack_col is_deep
  | .unary _ expr _ _, is_deep => expr.unpack_col is_deep
  | .binary _ leftExpr rightExpr _ _, is_deep =>
    if !is_deep then Option.none
    else
      match leftExpr.unpack_col true with
      | Option.some col => some col
      | Option.none => rightExpr.unpack_col true
  | _, _ => Option.none

/-! ### The Simplify rewriter (`src/expression/simplify.rs`) -/

/-- Embedding of `ReplaceBinary`. -/
structure ReplaceBinary where
  column_expr : ScalarExpression
  val_expr : ScalarExpression
  op : BinaryOperator
  ty : LogicalType
  is_column_left : Bool
deriving DecidableEq, Repr

/-- Embedding of `ReplaceUnary`. -/
structure ReplaceUnary where
  child_expr : ScalarExpression
  op : UnaryOperator
  ty : LogicalType
deriving DecidableEq, Repr

/-- Embedding of the `Replace` stack entries of the `Simplify` visitor. -/
inductive Replace where
  | binary (r : ReplaceBinary)
  | unary (r : ReplaceUnary)
deriving DecidableEq, Repr

namespace Simplify

/-- Embedding of `Simplify::is_arithmetic`. -/
def is_arithmetic : BinaryOperator → Bool
  | .plus | .divide | .minus | .multiply => true
  | _ => false

/-- Embedding of `Simplify::fix_unary`: replace the column side with the
unary child, wrap the value side in the unary operator, and adjust the
comparator by the sign table of the source. -/
def fix_unary (replace_unary : ReplaceUnary)
    (_col_expr val_expr : ScalarExpression) (op : BinaryOperator) :
    ScalarExpression × ScalarExpression × BinaryOperator :=
  let fix_op := replace_unary.op
  let fix_ty := replace_unary.ty
  let col' := replace_unary.child_expr
  let val' : ScalarExpression := .unary fix_op val_expr Option.none fix_ty
  let op' :=
    match fix_op with
    | .plus => op
    | .minus =>
      match op with
      | .plus => .minus
      | .minus => .plus
      | .multiply => .divide
      | .divide => .multiply
      | .gt => .lt
      | .lt => .gt
      | .gtEq => .ltEq
      | .ltEq => .gtEq
      | source_op => source_op
    | .not =>
      match op with
      | .gt => .lt
      | .lt => .gt
      | .gtEq => .ltEq
      | .ltEq => .gtEq
      | source_op => source_op
  (col', val', op')
-- The first component is ignored by the caller only through the later
-- rebinding; the tuple is (new left, new right, new comparator).

/-- The arithmetic inverse table `op_flip` of `Simplify::fix_binary`; the
source reaches `unreachable!()` on non-arithmetic operators (the pushes
are arithmetic only), embedded as the identity. -/
def op_flip : BinaryOperator → BinaryOperator
  | .plus => .minus
  | .minus => .plus
  | .multiply => .divide
  | .divide => .multiply
  | op => op

/-- The comparator flip table of `Simplify::fix_binary`. -/
def comparison_flip : BinaryOperator → BinaryOperator
  | .gt => .lt
  | .gtEq => .ltEq
  | .lt => .gt
  | .ltEq => .gtEq
  | source_op => source_op

/-- Embedding of `Simplify::fix_binary`: rearrange `(c op k) cmp rhs`
into `c cmp (rhs op_flip k)` (column on the left) or `c cmp (k op rhs)`
with a comparator flip for subtraction and multiplication (column on the
right). The tuple is (new left, new right, new comparator). -/
def fix_binary (replace_binary : ReplaceBinary)
    (_left_expr right_expr : ScalarExpression) (op : BinaryOperator) :
    ScalarExpression × ScalarExpression × BinaryOperator :=
  let temp_expr := right_expr
  let r :=
    if replace_binary.is_column_left then
      (op_flip replace_binary.op, temp_expr, replace_binary.val_expr, op)
    else
      let op2 :=
        if replace_binary.op = .minus || replace_binary.op = .multiply then
          comparison_flip op
        else op
      (replace_binary.op, replace_binary.val_expr, temp_expr, op2)
  (replace_binary.column_expr,
    .binary r.1 r.2.1 r.2.2.1 Option.none replace_binary.ty, r.2.2.2)

/-- The chain the `In` arm of `Simplify::visit` builds: starting from
`arg_expr op1 first`, each further argument is joined on the left with
`op2`. Every built binary node carries no evaluator and type `Boolean`. -/
def buildInChain (op1 op2 : BinaryOperator) (arg_expr : ScalarExpression)
    (acc : ScalarExpression) : ExprList → ScalarExpression
  | .nil => acc
  | .cons a rest =>
    buildInChain op1 op2 arg_expr
      (.binary op2 (.binary op1 arg_expr a Option.none .boolean) acc
        Option.none .boolean) rest

end Simplify

/-! ### The ConstantCalculator visitor (`src/expression/simplify.rs`) -/

namespace ConstantCalculator

mutual
/-- Embedding of `ConstantCalculator::visit`: bottom-up folding of
unary and binary nodes whose operands are constants; the remaining
variants follow the default walker (modelled from the spec as recursing
into every child). -/
def visit : ScalarExpression → Except DatabaseError ScalarExpression
  | .unary op arg evaluator ty =>
    match visit arg with
    | .error err => .error err
    | .ok arg' =>
      match arg' with
      | .constant unary_val =>
        match evaluator with
        | Option.some ev => .ok (.constant (ev.unary_eval unary_val))
        | Option.none =>
          match EvaluatorFactory.unary_create ty op with
          | .error err => .error err
          | .ok ev => .ok (.constant (ev.unary_eval unary_val))
      | _ => .ok (.unary op arg' evaluator ty)
  | .binary op leftExpr rightExpr evaluator nodeTy =>
    match
      LogicalType.max_logical_type leftExpr.return_type
        rightExpr.return_type with
    | .error err => .error err
    | .ok ty =>
      match visit leftExpr with
      | .error err => .error err
      | .ok l' =>
        match visit rightExpr with
        | .error err => .error err
        | .ok r' =>
          match l', r' with
          | .constant left_val, .constant right_val =>
            match EvaluatorFactory.binary_create ty op with
            | .error err => .error err
            | .ok ev =>
              match
                (if left_val.logicalType = ty then .ok left_val
                 else left_val.cast ty) with
              | .error err => .error err
              | .ok lv =>
                match
                  (if right_val.logicalType = ty then .ok right_val
                   else right_val.cast ty) with
                | .error err => .error err
                | .ok rv =>
                  match ev.binary_eval lv rv with
                  | .error err => .error err
                  | .ok value => .ok (.constant value)
          | _, _ => .ok (.binary op l' r' evaluator nodeTy)
  | .constant v => .ok (.constant v)
  | .columnRef col => .ok (.columnRef col)
  | .empty => .ok .empty
  | .alias expr aliasTy =>
    match visit expr with
    | .error err => .error err
    | .ok e' =>
      match visitAlias aliasTy with
      | .error err => .error err
      | .ok a' => .ok (.alias e' a')
  | .typeCast expr ty =>
    match visit expr with
    | .error err => .error err
    | .ok e' => .ok (.typeCast e' ty)
  | .isNull negated expr =>
    match visit expr with
    | .error err => .error err
    | .ok e' => .ok (.isNull negated e')
  | .aggCall distinct kind args ty =>
    match visitList args with
    | .error err => .error err
    | .ok args' => .ok (.aggCall distinct kind args' ty)
  | .inExpr negated expr args =>
    match visit expr with
    | .error err => .error err
    | .ok e' =>
      match visitList args with
      | .error err => .error err
      | .ok args' => .ok (.inExpr negated e' args')
  | .between negated expr leftExpr rightExpr =>
    match visit expr with
    | .error err => .error err
    | .ok e' =>
      match visit leftExpr with
      | .error err => .error err
      | .ok l' =>
        match visit rightExpr with
        | .error err => .error err
        | .ok r' => .ok (.between negated e' l' r')
  | .subString expr forExpr fromExpr =>
    match visit expr with
    | .error err => .error err
    | .ok e' =>
      match visitOpt forExpr with
      | .error err => .error err
      | .ok f' =>
        match visitOpt fromExpr with
        | .error err => .error err
        | .ok fr' => .ok (.subString e' f' fr')
  | .position expr inE =>
    match visit expr with
    | .error err => .error err
    | .ok e' =>
      match visit inE with
      | .error err => .error err
      | .ok i' => .ok (.position e' i')
  | .trim expr trimWhatExpr trimWhere =>
    match visit expr with
    | .error err => .error err
    | .ok e' =>
      match visitOpt trimWhatExpr with
      | .error err => .error err
      | .ok t' => .ok (.trim e' t' trimWhere)
  | .reference expr pos =>
    match visit expr with
    | .error err => .error err
    | .ok e' => .ok (.reference e' pos)
  | .tuple args =>
    match visitList args with
    | .error err => .error err
    | .ok args' => .ok (.tuple args')
  | .scalaFunction args inner =>
    match visitList args with
    | .error err => .error err
    | .ok args' => .ok (.scalaFunction args' inner)
  | .tableFunction args inner =>
    match visitList args with
    | .error err => .error err
    | .ok args' => .ok (.tableFunction args' inner)
  | .ifExpr condition leftExpr rightExpr ty =>
    match visit condition with
    | .error err => .error err
    | .ok c' =>
      match visit leftExpr with
      | .error err => .error err
      | .ok l' =>
        match visit rightExpr with
        | .error err => .error err
        | .ok r' => .ok (.ifExpr c' l' r' ty)
  | .ifNull leftExpr rightExpr ty =>
    match visit leftExpr with
    | .error err => .error err
    | .ok l' =>
      match visit rightExpr with
      | .error err => .error err
      | .ok r' => .ok (.ifNull l' r' ty)
  | .nullIf leftExpr rightExpr ty =>
    match visit leftExpr with
    | .error err => .error err
    | .ok l' =>
      match visit rightExpr with
      | .error err => .error err
      | .ok r' => .ok (.nullIf l' r' ty)
  | .coalesce exprs ty =>
    match visitList exprs with
    | .error err => .error err
    | .ok es' => .ok (.coalesce es' ty)
  | .caseWhen operandExpr exprPairs elseExpr ty =>
    match visitOpt operandExpr with
    | .error err => .error err
    | .ok o' =>
      match visitPairs exprPairs with
      | .error err => .error err
      | .ok p' =>
        match visitOpt elseExpr with
        | .error err => .error err
        | .ok el' => .ok (.caseWhen o' p' el' ty)

/-- The walk over an alias tag. -/
def visitAlias : AliasType → Except DatabaseError AliasType
  | .name s => .ok (.name s)
  | .exprA e =>
    match visit e with
    | .error err => .error err
    | .ok e' => .ok (.exprA e')

/-- The walk over a child list. -/
def visitList : ExprList → Except DatabaseError ExprList
  | .nil => .ok .nil
  | .cons e es =>
    match visit e with
    | .error err => .error err
    | .ok e' =>
      match visitList es with
      | .error err => .error err
      | .ok es' => .ok (.cons e' es')

/-- The walk over an optional child. -/
def visitOpt : OptExpr → Except DatabaseError OptExpr
  | .none => .ok .none
  | .some e =>
    match visit e with
    | .error err => .error err
    | .ok e' => .ok (.some e')

/-- The walk over when/then pairs. -/
def visitPairs : ExprPairList → Except DatabaseError ExprPairList
  | .nil => .ok .nil
  | .cons w t rest =>
    match visit w with
    | .error err => .error err
    | .ok w' =>
      match visit t with
      | .error err => .error err
      | .ok t' =>
        match visitPairs rest with
        | .error err => .error err
        | .ok rest' => .ok (.cons w' t' rest')
end

end ConstantCalculator

namespace Simplify

/-- The result state of a `Simplify` step: the replace stack and the
rewritten expression. -/
abbrev VisitResult := List Replace × ScalarExpression

/-- The result state of `fix_expr` and of the pop loop: stack, the two
sides, the comparator. -/
abbrev FixResult := List Replace × ScalarExpression × ScalarExpression
  × BinaryOperator

mutual
/-- Embedding of `Simplify::visit` from `src/expression/simplify.rs`.
The visitor state (`self.replaces`) is threaded explicitly, with pushes
at the head of the list; the recursion of the source is not structural
(the `In` and `Between` arms rebuild a larger tree and walk it, and the
pop loop of `fix_expr` recurses through the stack), so every function of
this block consumes one unit of fuel per call and fails with the
embedding artifact `outOfFuel` when it runs out. -/
def visit : Nat → List Replace → ScalarExpression →
    Except DatabaseError VisitResult
  | 0, _, _ => .error .outOfFuel
  | fuel + 1, replaces, e =>
    match e with
    | .unary op arg_expr evaluator ty =>
      match (ScalarExpression.unary op arg_expr evaluator ty).unpack_val with
      | Option.some value => .ok (replaces, .constant value)
      | Option.none =>
        .ok (.unary
          { child_expr := arg_expr, op := op, ty := ty } :: replaces,
          .unary op arg_expr evaluator ty)
    | .binary op leftExpr rightExpr evaluator ty =>
      match fix_expr fuel replaces leftExpr rightExpr op with
      | .error err => .error err
      | .ok (st1, l1, r1, op1) =>
        -- the source then calls `fix_expr(right_expr, left_expr, op)`
        match fix_expr fuel st1 r1 l1 op1 with
        | .error err => .error err
        | .ok (st2, r2, l2, op2) =>
          if is_arithmetic op2 then
            match l2.unpack_col false, r2.unpack_col false with
            | Option.some col, Option.none =>
              .ok (.binary
                { column_expr := .columnRef col, val_expr := r2,
                  op := op2, ty := ty, is_column_left := true } :: st2,
                .binary op2 l2 .empty evaluator ty)
            | Option.none, Option.some col =>
              .ok (.binary
                { column_expr := .columnRef col, val_expr := l2,
                  op := op2, ty := ty, is_column_left := false } :: st2,
                .binary op2 .empty r2 evaluator ty)
            | Option.none, Option.none =>
              if st2.isEmpty then
                .ok (st2, .binary op2 l2 r2 evaluator ty)
              else
                match l2.unpack_col true, r2.unpack_col true with
                | Option.some col, Option.none =>
                  .ok (.binary
                    { column_expr := .columnRef col, val_expr := r2,
                      op := op2, ty := ty, is_column_left := true } :: st2,
                    .binary op2 l2 .empty evaluator ty)
                | Option.none, Option.some col =>
                  .ok (.binary
                    { column_expr := .columnRef col, val_expr := l2,
                      op := op2, ty := ty, is_column_left := false } :: st2,
                    .binary op2 .empty r2 evaluator ty)
                | _, _ => .ok (st2, .binary op2 l2 r2 evaluator ty)
            | _, _ => .ok (st2, .binary op2 l2 r2 evaluator ty)
          else .ok (st2, .binary op2 l2 r2 evaluator ty)
    | .typeCast arg ty =>
      match (ScalarExpression.typeCast arg ty).unpack_val with
      | Option.some val => .ok (replaces, .constant val)
      | Option.none => .ok (replaces, .typeCast arg ty)
    | .isNull negated arg =>
      match (ScalarExpression.isNull negated arg).unpack_val with
      | Option.some val =>
        .ok (replaces, .constant (.boolean val.isNull))
      | Option.none => .ok (replaces, .isNull negated arg)
    | .inExpr negated arg_expr args =>
      match args with
      | .nil => .ok (replaces, .inExpr negated arg_expr .nil)
      | .cons first rest =>
        let ops : BinaryOperator × BinaryOperator :=
          if negated then (.notEq, .and) else (.eq, .or)
        let new_expr :=
          buildInChain ops.1 ops.2 arg_expr
            (.binary ops.1 arg_expr first Option.none .boolean) rest
        walk fuel replaces new_expr
    | .between negated arg_expr leftExpr rightExpr =>
      let ops : BinaryOperator × BinaryOperator × BinaryOperator :=
        if negated then (.or, .lt, .gt) else (.and, .gtEq, .ltEq)
      let new_expr : ScalarExpression :=
        .binary ops.1
          (.binary ops.2.1 arg_expr leftExpr Option.none .boolean)
          (.binary ops.2.2 arg_expr rightExpr Option.none .boolean)
          Option.none .boolean
      walk fuel replaces new_expr
    | other => walk fuel replaces other

/-- The default walker of `expression/visitor_mut.rs` (not among the
sources at hand), modelled from the spec: visit every child in order,
threading the stack. -/
def walk : Nat → List Replace → ScalarExpression →
    Except DatabaseError VisitResult
  | 0, _, _ => .error .outOfFuel
  | fuel + 1, replaces, e =>
    match e with
    | .constant v => .ok (replaces, .constant v)
    | .columnRef col => .ok (replaces, .columnRef col)
    | .empty => .ok (replaces, .empty)
    | .alias expr aliasTy =>
      match visit fuel replaces expr with
      | .error err => .error err
      | .ok (st1, e') =>
        match walkAlias fuel st1 aliasTy with
        | .error err => .error err
        | .ok (st2, a') => .ok (st2, .alias e' a')
    | .typeCast expr ty =>
      match visit fuel replaces expr with
      | .error err => .error err
      | .ok (st1, e') => .ok (st1, .typeCast e' ty)
    | .isNull negated expr =>
      match visit fuel replaces expr with
      | .error err => .error err
      | .ok (st1, e') => .ok (st1, .isNull negated e')
    | .unary op expr evaluator ty =>
      match visit fuel replaces expr with
      | .error err => .error err
      | .ok (st1, e') => .ok (st1, .unary op e' evaluator ty)
    | .binary op leftExpr rightExpr evaluator ty =>
      match visit fuel replaces leftExpr with
      | .error err => .error err
      | .ok (st1, l') =>
        match visit fuel st1 rightExpr with
        | .error err => .error err
        | .ok (st2, r') => .ok (st2, .binary op l' r' evaluator ty)
    | .aggCall distinct kind args ty =>
      match walkList fuel replaces args with
      | .error err => .error err
      | .ok (st1, args') => .ok (st1, .aggCall distinct kind args' ty)
    | .inExpr negated expr args =>
      match visit fuel replaces expr with
      | .error err => .error err
      | .ok (st1, e') =>
        match walkList fuel st1 args with
        | .error err => .error err
        | .ok (st2, args') => .ok (st2, .inExpr negated e' args')
    | .between negated expr leftExpr rightExpr =>
      match visit fuel replaces expr with
      | .error err => .error err
      | .ok (st1, e') =>
        match visit fuel st1 leftExpr with
        | .error err => .error err
        | .ok (st2, l') =>
          match visit fuel st2 rightExpr with
          | .error err => .error err
          | .ok (st3, r') => .ok (st3, .between negated e' l' r')
    | .subString expr forExpr fromExpr =>
      match visit fuel replaces expr with
      | .error err => .error err
      | .ok (st1, e') =>
        match walkOpt fuel st1 forExpr with
        | .error err => .error err
        | .ok (st2, f') =>
          match walkOpt fuel st2 fromExpr with
          | .error err => .error err
          | .ok (st3, fr') => .ok (st3, .subString e' f' fr')
    | .position expr inE =>
      match visit fuel replaces expr with
      | .error err => .error err
      | .ok (st1, e') =>
        match visit fuel st1 inE with
        | .error err => .error err
        | .ok (st2, i') => .ok (st2, .position e' i')
    | .trim expr trimWhatExpr trimWhere =>
      match visit fuel replaces expr with
      | .error err => .error err
      | .ok (st1, e') =>
        match walkOpt fuel st1 trimWhatExpr with
        | .error err => .error err
        | .ok (st2, t') => .ok (st2, .trim e' t' trimWhere)
    | .reference expr pos =>
      match visit fuel replaces expr with
      | .error err => .error err
      | .ok (st1, e') => .ok (st1, .reference e' pos)
    | .tuple args =>
      match walkList fuel replaces args with
      | .error err => .error err
      | .ok (st1, args') => .ok (st1, .tuple args')
    | .scalaFunction args inner =>
      match walkList fuel replaces args with
      | .error err => .error err
      | .ok (st1, args') => .ok (st1, .scalaFunction args' inner)
    | .tableFunction args inner =>
      match walkList fuel replaces args with
      | .error err => .error err
      | .ok (st1, args') => .ok (st1, .tableFunction args' inner)
    | .ifExpr condition leftExpr rightExpr ty =>
      match visit fuel replaces condition with
      | .error err => .error err
      | .ok (st1, c') =>
        match visit fuel st1 leftExpr with
        | .error err => .error err
        | .ok (st2, l') =>
          match visit fuel st2 rightExpr with
          | .error err => .error err
          | .ok (st3, r') => .ok (st3, .ifExpr c' l' r' ty)
    | .ifNull leftExpr rightExpr ty =>
      match visit fuel replaces leftExpr with
      | .error err => .error err
      | .ok (st1, l') =>
        match visit fuel st1 rightExpr with
        | .error err => .error err
        | .ok (st2, r') => .ok (st2, .ifNull l' r' ty)
    | .nullIf leftExpr rightExpr ty =>
      match visit fuel replaces leftExpr with
      | .error err => .error err
      | .ok (st1, l') =>
        match visit fuel st1 rightExpr with
        | .error err => .error err
        | .ok (st2, r') => .ok (st2, .nullIf l' r' ty)
    | .coalesce exprs ty =>
      match walkList fuel replaces exprs with
      | .error err => .error err
      | .ok (st1, es') => .ok (st1, .coalesce es' ty)
    | .caseWhen operandExpr exprPairs elseExpr ty =>
      match walkOpt fuel replaces operandExpr with
      | .error err => .error err
      | .ok (st1, o') =>
        match walkPairs fuel st1 exprPairs with
        | .error err => .error err
        | .ok (st2, p') =>
          match walkOpt fuel st2 elseExpr with
          | .error err => .error err
          | .ok (st3, el') => .ok (st3, .caseWhen o' p' el' ty)

/-- The walk over an alias tag. -/
def walkAlias : Nat → List Replace → AliasType →
    Except DatabaseError (List Replace × AliasType)
  | 0, _, _ => .error .outOfFuel
  | fuel + 1, replaces, a =>
    match a with
    | .name s => .ok (replaces, .name s)
    | .exprA e =>
      match visit fuel replaces e with
      | .error err => .error err
      | .ok (st1, e') => .ok (st1, .exprA e')

/-- The walk over a child list. -/
def walkList : Nat → List Replace → ExprList →
    Except DatabaseError (List Replace × ExprList)
  | 0, _, _ => .error .outOfFuel
  | fuel + 1, replaces, es =>
    match es with
    | .nil => .ok (replaces, .nil)
    | .cons e rest =>
      match visit fuel replaces e with
      | .error err => .error err
      | .ok (st1, e') =>
        match walkList fuel st1 rest with
        | .error err => .error err
        | .ok (st2, rest') => .ok (st2, .cons e' rest')

/-- The walk over an optional child. -/
def walkOpt : Nat → List Replace → OptExpr →
    Except DatabaseError (List Replace × OptExpr)
  | 0, _, _ => .error .outOfFuel
  | fuel + 1, replaces, o =>
    match o with
    | .none => .ok (replaces, .none)
    | .some e =>
      match visit fuel replaces e with
      | .error err => .error err
      | .ok (st1, e') => .ok (st1, .some e')

/-- The walk over when/then pairs. -/
def walkPairs : Nat → List Replace → ExprPairList →
    Except DatabaseError (List Replace × ExprPairList)
  | 0, _, _ => .error .outOfFuel
  | fuel + 1, replaces, ps =>
    match ps with
    | .nil => .ok (replaces, .nil)
    | .cons w t rest =>
      match visit fuel replaces w with
      | .error err => .error err
      | .ok (st1, w') =>
        match visit fuel st1 t with
        | .error err => .error err
        | .ok (st2, t') =>
          match walkPairs fuel st2 rest with
          | .error err => .error err
          | .ok (st3, rest') => .ok (st3, .cons w' t' rest')

/-- Embedding of `Simplify::fix_expr`: visit the left side, return early
for arithmetic comparators, otherwise drain the replace stack. -/
def fix_expr : Nat → List Replace → ScalarExpression → ScalarExpression →
    BinaryOperator → Except DatabaseError FixResult
  | 0, _, _, _, _ => .error .outOfFuel
  | fuel + 1, replaces, left_expr, right_expr, op =>
    match visit fuel replaces left_expr with
    | .error err => .error err
    | .ok (st1, l1) =>
      if is_arithmetic op then .ok (st1, l1, right_expr, op)
      else fixLoop fuel st1 l1 right_expr op

/-- The `while let Some(replace) = self.replaces.pop()` loop of
`Simplify::fix_expr`: binary entries are applied directly, unary entries
are applied and followed by a recursive `fix_expr` before the loop
continues on the remaining stack. -/
def fixLoop : Nat → List Replace → ScalarExpression → ScalarExpression →
    BinaryOperator → Except DatabaseError FixResult
  | 0, _, _, _, _ => .error .outOfFuel
  | fuel + 1, replaces, left_expr, right_expr, op =>
    match replaces with
    | [] => .ok ([], left_expr, right_expr, op)
    | .binary b :: rest =>
      let r := fix_binary b left_expr right_expr op
      fixLoop fuel rest r.1 r.2.1 r.2.2
    | .unary u :: rest =>
      let r := fix_unary u left_expr right_expr op
      match fix_expr fuel rest r.1 r.2.1 r.2.2 with
      | .error err => .error err
      | .ok (st2, l2, r2, op2) => fixLoop fuel st2 l2 r2 op2
end

end Simplify

/-! ### The SimplifyFilter rule (claim C6) -/

/-- Model of `HepGraph` (spec section 3): operators keyed by stable node
ids, plus the monotonically increasing version counter
(`optimizer/heuristic/graph.rs` is not among the sources at hand). -/
structure HepGraph where
  ops : List (Nat × Operator)
  version : Nat
deriving DecidableEq, Repr

/-- The operator stored at a node id. -/
def HepGraph.operator? (g : HepGraph) (node_id : Nat) : Option Operator :=
  g.ops.lookup node_id

/-- Replacing the operator stored at a node id (models the in-place
mutation through `operator_mut`). -/
def HepGraph.replaceOperator (g : HepGraph) (node_id : Nat)
    (op : Operator) : HepGraph :=
  { g with ops := g.ops.map fun p => if p.1 = node_id then (p.1, op) else p }

namespace SimplifyFilter

/-- Embedding of `SimplifyFilter::apply` from
`src/optimizer/rule/normalization/simplification.rs`: on a filter node
whose `is_optimized` flag is still false, run `ConstantCalculator` and a
fresh `Simplify` over the predicate, set the flag and bump the graph
version; a filter already optimized, or a non-filter node, returns `Ok`
with the graph untouched. The fuel feeds the fueled `Simplify`
embedding. -/
def apply (fuel : Nat) (node_id : Nat) (graph : HepGraph) :
    Except DatabaseError HepGraph :=
  match graph.operator? node_id with
  | Option.some (.filter filter_op) =>
    if filter_op.is_optimized then .ok graph
    else
      match ConstantCalculator.visit filter_op.predicate with
      | .error err => .error err
      | .ok p1 =>
        match Simplify.visit fuel [] p1 with
        | .error err => .error err
        | .ok (_, p2) =>
          let hv := filter_op.having
          let newOp : Operator :=
            .filter { predicate := p2, having := hv, is_optimized := true }
          let g2 := graph.replaceOperator node_id newOp
          .ok { g2 with version := graph.version + 1 }
  | _ => .ok graph

end SimplifyFilter

theorem lookup_replace (l : List (Nat × Operator)) (node_id : Nat)
    (op : Operator) :
    List.lookup node_id (l.map fun p =>
        if p.1 = node_id then (p.1, op) else p) =
      (List.lookup node_id l).map fun _ => op := by
  induction l with
  | nil => rfl
  | cons hd tl ih =>
    obtain ⟨k, v⟩ := hd
    by_cases h : k = node_id
    · subst h
      rw [List.map_cons, if_pos rfl]
      simp [List.lookup]
    · have hb : (node_id == k) = false :=
        beq_eq_false_iff_ne.mpr fun hx => h hx.symm
      rw [List.map_cons, if_neg h]
      simp [List.lookup, hb, ih]

/-- C6. Idempotence of `SimplifyFilter` through the `is_optimized` flag:
applying the rule to a filter node whose flag is already set returns `Ok`
with the graph — predicate and version counter — unchanged, and whenever
one application succeeds, a second application (with any fuel) returns
the same graph unchanged. -/
theorem C6_simplify_filter_idempotent (fuel fuel2 node_id : Nat)
    (g : HepGraph) :
    (∀ f, g.operator? node_id = some (.filter f) →
      f.is_optimized = true →
      SimplifyFilter.apply fuel node_id g = .ok g) ∧
    (∀ g', SimplifyFilter.apply fuel node_id g = .ok g' →
      SimplifyFilter.apply fuel2 node_id g' = .ok g') := by
  constructor
  · intro f hf hflag
    simp [SimplifyFilter.apply, hf, hflag]
  · intro g' happly
    unfold SimplifyFilter.apply at happly
    cases hop : g.operator? node_id with
    | none =>
      simp only [hop] at happly
      injection happly with h2
      subst h2
      simp [SimplifyFilter.apply, hop]
    | some op =>
      simp only [hop] at happly
      cases op with
      | filter f =>
        by_cases hflag : f.is_optimized = true
        · simp only [hflag, if_true] at happly
          injection happly with h2
          subst h2
          simp [SimplifyFilter.apply, hop, hflag]
        · rw [Bool.not_eq_true] at hflag
          simp only [hflag, Bool.false_eq_true, if_false] at happly
          cases hcc : ConstantCalculator.visit f.predicate with
          | error err =>
            simp only [hcc] at happly
            exact Except.noConfusion happly
          | ok p1 =>
            simp only [hcc] at happly
            cases hs : Simplify.visit fuel [] p1 with
            | error err =>
              simp only [hs] at happly
              exact Except.noConfusion happly
            | ok pr =>
              obtain ⟨st, p2⟩ := pr
              simp only [hs] at happly
              injection happly with h2
              subst h2
              have hop2 : List.lookup node_id g.ops = some (.filter f) := hop
              simp [SimplifyFilter.apply, HepGraph.operator?,
                HepGraph.replaceOperator, lookup_replace, hop2]
      | tableScan a b =>
        injection happly with h2
        subst h2
        simp [SimplifyFilter.apply, hop]
      | addColumn a =>
        injection happly with h2
        subst h2
        simp [SimplifyFilter.apply, hop]
      | dropColumn a =>
        injection happly with h2
        subst h2
        simp [SimplifyFilter.apply, hop]
      | dummy =>
        injection happly with h2
        subst h2
        simp [SimplifyFilter.apply, hop]

theorem C6_simplify_filter_idempotent_witness :
    SimplifyFilter.apply 0 0
        { ops := [(0, .filter
            { predicate := .constant (.boolean true), having := false,
              is_optimized := true })], version := 5 } =
      .ok { ops := [(0, .filter
          { predicate := .constant (.boolean true), having := false,
            is_optimized := true })], version := 5 } :=
  (C6_simplify_filter_idempotent 0 0 0
      { ops := [(0, .filter
          { predicate := .constant (.boolean true), having := false,
            is_optimized := true })], version := 5 }).1
    { predicate := .constant (.boolean true), having := false,
      is_optimized := true } rfl rfl


/-! ### Three-valued semantics and the In expansion (claim C7) -/

/-- Number of values in a `DVList`. -/
def DVList.length : DVList → Nat
  | .nil => 0
  | .cons _ vs => vs.length + 1

/-- The constant argument expressions `v1, …, vn` of an `In` whose list
holds literal values. -/
def constInArgs : DVList → ExprList
  | .nil => .nil
  | .cons v vs => .cons (.constant v) (constInArgs vs)

/-- Three-valued OR, `Option.none` standing for the SQL NULL. Modelled
from the simplification-equivalence sentence of the spec. -/
def tvOr : Option Bool → Option Bool → Option Bool
  | Option.some true, _ => Option.some true
  | _, Option.some true => Option.some true
  | Option.none, _ => Option.none
  | _, Option.none => Option.none
  | Option.some false, Option.some false => Option.some false

/-- Three-valued AND. -/
def tvAnd : Option Bool → Option Bool → Option Bool
  | Option.some false, _ => Option.some false
  | _, Option.some false => Option.some false
  | Option.none, _ => Option.none
  | _, Option.none => Option.none
  | Option.some true, Option.some true => Option.some true

/-- Three-valued NOT. -/
def tvNot : Option Bool → Option Bool
  | Option.none => Option.none
  | Option.some b => Option.some (!b)

/-- Three-valued comparison of the column value against a constant:
NULL when either side is null, otherwise value equality. -/
def tvEq (a b : DataValue) : Option Bool :=
  if a.isNull || b.isNull then Option.none else Option.some (a == b)

/-- Spec-modelled three-valued membership `cv IN (v1, …, vn)`: the OR of
the individual comparisons. -/
def tvIn (cv : DataValue) : DVList → Option Bool
  | .nil => Option.some false
  | .cons v vs => tvOr (tvEq cv v) (tvIn cv vs)

/-- The three-valued value of the original `In` / `NOT IN` node. -/
def tvInExpr : Bool → DataValue → DVList → Option Bool
  | false, cv, vs => tvIn cv vs
  | true, cv, vs => tvNot (tvIn cv vs)

/-- Spec-modelled three-valued evaluation of the fragment the `In`
expansion produces: `=` or `≠` of the tested column against a constant,
and `AND` / `OR` nodes over such tests; `cv` is the column value supplied
by the input tuple, and shapes outside the fragment have no value. -/
def tvEval (cv : DataValue) : ScalarExpression → Option (Option Bool)
  | .binary .eq (.columnRef _) (.constant v) _ _ => Option.some (tvEq cv v)
  | .binary .notEq (.columnRef _) (.constant v) _ _ =>
    Option.some (tvNot (tvEq cv v))
  | .binary .or l r _ _ =>
    match tvEval cv l, tvEval cv r with
    | Option.some a, Option.some b => Option.some (tvOr a b)
    | _, _ => Option.none
  | .binary .and l r _ _ =>
    match tvEval cv l, tvEval cv r with
    | Option.some a, Option.some b => Option.some (tvAnd a b)
    | _, _ => Option.none
  | _ => Option.none

/-- Whether every binary node of a tree carries type Boolean. -/
def allBinaryBoolean : ScalarExpression → Bool
  | .binary _ l r _ ty =>
    (ty == LogicalType.boolean) && allBinaryBoolean l && allBinaryBoolean r
  | _ => true

/-- The chain the `In` arm of `Simplify::visit` builds for a column
tested against the constants `first, rest`: `Eq` joined by `Or` when not
negated, `NotEq` joined by `And` when negated. -/
def inChainExpr : Bool → ColumnRef → DataValue → DVList → ScalarExpression
  | false, col, first, rest =>
    Simplify.buildInChain .eq .or (.columnRef col)
      (.binary .eq (.columnRef col) (.constant first) Option.none .boolean)
      (constInArgs rest)
  | true, col, first, rest =>
    Simplify.buildInChain .notEq .and (.columnRef col)
      (.binary .notEq (.columnRef col) (.constant first) Option.none .boolean)
      (constInArgs rest)

/-- The column `c1` of the C7 counterexample. -/
def C7col : ColumnRef :=
  ColumnCatalog.new "c1" true
    { datatype := .integer, primary := Option.none, unique := false }

/-- The arithmetic tested expression `c1 + 1` of the C7 counterexample. -/
def C7badArg : ScalarExpression :=
  .binary .plus (.columnRef C7col) (.constant (.int32 1)) Option.none .integer

/-- The replace entry the post-expansion walk leaks on the C7
counterexample. -/
def C7replace : ReplaceBinary :=
  { column_expr := .columnRef C7col, val_expr := .constant (.int32 1), op := .plus, ty := .integer, is_column_left := true }

/-- The pop loop of `fix_expr` on an empty stack returns its arguments. -/
theorem fixLoop_nil (f : Nat) (l r : ScalarExpression) (op : BinaryOperator) :
    Simplify.fixLoop (f + 1) [] l r op = .ok ([], l, r, op) := rfl

/-- `Simplify::visit` leaves an `Eq` test of a column against a constant
unchanged. -/
theorem visit_eq_node (m : Nat) (col : ColumnRef) (v : DataValue) :
    Simplify.visit (m + 4) []
        (.binary .eq (.columnRef col) (.constant v) Option.none .boolean) =
      .ok ([], .binary .eq (.columnRef col) (.constant v) Option.none .boolean) := rfl

/-- `Simplify::visit` leaves a `NotEq` test of a column against a
constant unchanged. -/
theorem visit_ne_node (m : Nat) (col : ColumnRef) (v : DataValue) :
    Simplify.visit (m + 4) []
        (.binary .notEq (.columnRef col) (.constant v) Option.none .boolean) =
      .ok ([], .binary .notEq (.columnRef col) (.constant v) Option.none .boolean) := rfl

/-- The default walker leaves an `Eq` test of a column against a
constant unchanged. -/
theorem walk_eq_node (m : Nat) (col : ColumnRef) (v : DataValue) :
    Simplify.walk (m + 3) []
        (.binary .eq (.columnRef col) (.constant v) Option.none .boolean) =
      .ok ([], .binary .eq (.columnRef col) (.constant v) Option.none .boolean) := rfl

/-- The default walker leaves a `NotEq` test of a column against a
constant unchanged. -/
theorem walk_ne_node (m : Nat) (col : ColumnRef) (v : DataValue) :
    Simplify.walk (m + 3) []
        (.binary .notEq (.columnRef col) (.constant v) Option.none .boolean) =
      .ok ([], .binary .notEq (.columnRef col) (.constant v) Option.none .boolean) := rfl

/-- One chain step: `Simplify::visit` keeps an `Or` node both of whose
children it keeps. -/
theorem visit_step_or (E acc : ScalarExpression) (f : Nat)
    (hE : Simplify.visit (f + 1) [] E = .ok ([], E))
    (hacc : Simplify.visit (f + 1) [] acc = .ok ([], acc)) :
    Simplify.visit (f + 1 + 1 + 1) [] (.binary .or E acc Option.none .boolean) =
      .ok ([], .binary .or E acc Option.none .boolean) := by
  have har : Simplify.is_arithmetic .or = false := rfl
  simp only [Simplify.visit]
  simp only [Simplify.fix_expr]
  simp [hE, hacc, fixLoop_nil, har]

/-- One chain step: `Simplify::visit` keeps an `And` node both of whose
children it keeps. -/
theorem visit_step_and (E acc : ScalarExpression) (f : Nat)
    (hE : Simplify.visit (f + 1) [] E = .ok ([], E))
    (hacc : Simplify.visit (f + 1) [] acc = .ok ([], acc)) :
    Simplify.visit (f + 1 + 1 + 1) [] (.binary .and E acc Option.none .boolean) =
      .ok ([], .binary .and E acc Option.none .boolean) := by
  have har : Simplify.is_arithmetic .and = false := rfl
  simp only [Simplify.visit]
  simp only [Simplify.fix_expr]
  simp [hE, hacc, fixLoop_nil, har]

/-- The default walker keeps a binary node both of whose children
`Simplify::visit` keeps. -/
theorem walk_step (E acc : ScalarExpression) (op : BinaryOperator) (f : Nat)
    (hE : Simplify.visit (f + 1) [] E = .ok ([], E))
    (hacc : Simplify.visit (f + 1) [] acc = .ok ([], acc)) :
    Simplify.walk (f + 1 + 1) [] (.binary op E acc Option.none .boolean) =
      .ok ([], .binary op E acc Option.none .boolean) := by
  simp only [Simplify.walk]
  simp [hE, hacc]

/-- `Simplify::visit` and the default walker keep every `Eq`/`Or` chain
grown by `buildInChain` from a kept accumulator, with fuel linear in the
number of remaining list elements. -/
theorem chainVW_or (col : ColumnRef) : (rest : DVList) →
    ∀ (acc : ScalarExpression) (p : Nat), 4 ≤ p →
      (∀ m, Simplify.visit (m + p) [] acc = .ok ([], acc)) →
      (∀ m, Simplify.walk (m + p) [] acc = .ok ([], acc)) →
      (∀ m, Simplify.visit (m + (2 * DVList.length rest + p)) []
          (Simplify.buildInChain .eq .or (.columnRef col) acc (constInArgs rest)) =
        .ok ([], Simplify.buildInChain .eq .or (.columnRef col) acc (constInArgs rest))) ∧
      (∀ m, Simplify.walk (m + (2 * DVList.length rest + p)) []
          (Simplify.buildInChain .eq .or (.columnRef col) acc (constInArgs rest)) =
        .ok ([], Simplify.buildInChain .eq .or (.columnRef col) acc (constInArgs rest)))
  | .nil => by
    intro acc p hp hv hw
    simp only [constInArgs, Simplify.buildInChain, DVList.length]
    constructor
    · intro m
      have h := hv m
      rwa [show m + p = m + (2 * 0 + p) from by omega] at h
    · intro m
      have h := hw m
      rwa [show m + p = m + (2 * 0 + p) from by omega] at h
  | .cons v vs => by
    intro acc p hp hv hw
    have hv2 : ∀ m, Simplify.visit (m + (p + 2)) []
        (.binary .or (.binary .eq (.columnRef col) (.constant v) Option.none .boolean) acc Option.none .boolean) =
        .ok ([], .binary .or (.binary .eq (.columnRef col) (.constant v) Option.none .boolean) acc Option.none .boolean) := by
      intro m
      have hE : Simplify.visit (m + (p - 1) + 1) []
          (.binary .eq (.columnRef col) (.constant v) Option.none .boolean) =
          .ok ([], .binary .eq (.columnRef col) (.constant v) Option.none .boolean) := by
        have h0 := visit_eq_node (m + (p - 4)) col v
        rwa [show m + (p - 4) + 4 = m + (p - 1) + 1 from by omega] at h0
      have hA : Simplify.visit (m + (p - 1) + 1) [] acc = .ok ([], acc) := by
        have h0 := hv m
        rwa [show m + p = m + (p - 1) + 1 from by omega] at h0
      have h2 := visit_step_or _ acc (m + (p - 1)) hE hA
      rwa [show m + (p - 1) + 1 + 1 + 1 = m + (p + 2) from by omega] at h2
    have hw2 : ∀ m, Simplify.walk (m + (p + 2)) []
        (.binary .or (.binary .eq (.columnRef col) (.constant v) Option.none .boolean) acc Option.none .boolean) =
        .ok ([], .binary .or (.binary .eq (.columnRef col) (.constant v) Option.none .boolean) acc Option.none .boolean) := by
      intro m
      have hE : Simplify.visit (m + p + 1) []
          (.binary .eq (.columnRef col) (.constant v) Option.none .boolean) =
          .ok ([], .binary .eq (.columnRef col) (.constant v) Option.none .boolean) := by
        have h0 := visit_eq_node (m + (p - 3)) col v
        rwa [show m + (p - 3) + 4 = m + p + 1 from by omega] at h0
      have hA : Simplify.visit (m + p + 1) [] acc = .ok ([], acc) := by
        have h0 := hv (m + 1)
        rwa [show m + 1 + p = m + p + 1 from by omega] at h0
      have h2 := walk_step _ acc .or (m + p) hE hA
      rwa [show m + p + 1 + 1 = m + (p + 2) from by omega] at h2
    have IH := chainVW_or col vs
      (.binary .or (.binary .eq (.columnRef col) (.constant v) Option.none .boolean) acc Option.none .boolean)
      (p + 2) (by omega) hv2 hw2
    simp only [constInArgs, Simplify.buildInChain, DVList.length]
    constructor
    · intro m
      have h := IH.1 m
      rwa [show m + (2 * DVList.length vs + (p + 2)) = m + (2 * (DVList.length vs + 1) + p) from by omega] at h
    · intro m
      have h := IH.2 m
      rwa [show m + (2 * DVList.length vs + (p + 2)) = m + (2 * (DVList.length vs + 1) + p) from by omega] at h

/-- `Simplify::visit` and the default walker keep every `NotEq`/`And`
chain grown by `buildInChain` from a kept accumulator, with fuel linear
in the number of remaining list elements. -/
theorem chainVW_and (col : ColumnRef) : (rest : DVList) →
    ∀ (acc : ScalarExpression) (p : Nat), 4 ≤ p →
      (∀ m, Simplify.visit (m + p) [] acc = .ok ([], acc)) →
      (∀ m, Simplify.walk (m + p) [] acc = .ok ([], acc)) →
      (∀ m, Simplify.visit (m + (2 * DVList.length rest + p)) []
          (Simplify.buildInChain .notEq .and (.columnRef col) acc (constInArgs rest)) =
        .ok ([], Simplify.buildInChain .notEq .and (.columnRef col) acc (constInArgs rest))) ∧
      (∀ m, Simplify.walk (m + (2 * DVList.length rest + p)) []
          (Simplify.buildInChain .notEq .and (.columnRef col) acc (constInArgs rest)) =
        .ok ([], Simplify.buildInChain .notEq .and (.columnRef col) acc (constInArgs rest)))
  | .nil => by
    intro acc p hp hv hw
    simp only [constInArgs, Simplify.buildInChain, DVList.length]
    constructor
    · intro m
      have h := hv m
      rwa [show m + p = m + (2 * 0 + p) from by omega] at h
    · intro m
      have h := hw m
      rwa [show m + p = m + (2 * 0 + p) from by omega] at h
  | .cons v vs => by
    intro acc p hp hv hw
    have hv2 : ∀ m, Simplify.visit (m + (p + 2)) []
        (.binary .and (.binary .notEq (.columnRef col) (.constant v) Option.none .boolean) acc Option.none .boolean) =
        .ok ([], .binary .and (.binary .notEq (.columnRef col) (.constant v) Option.none .boolean) acc Option.none .boolean) := by
      intro m
      have hE : Simplify.visit (m + (p - 1) + 1) []
          (.binary .notEq (.columnRef col) (.constant v) Option.none .boolean) =
          .ok ([], .binary .notEq (.columnRef col) (.constant v) Option.none .boolean) := by
        have h0 := visit_ne_node (m + (p - 4)) col v
        rwa [show m + (p - 4) + 4 = m + (p - 1) + 1 from by omega] at h0
      have hA : Simplify.visit (m + (p - 1) + 1) [] acc = .ok ([], acc) := by
        have h0 := hv m
        rwa [show m + p = m + (p - 1) + 1 from by omega] at h0
      have h2 := visit_step_and _ acc (m + (p - 1)) hE hA
      rwa [show m + (p - 1) + 1 + 1 + 1 = m + (p + 2) from by omega] at h2
    have hw2 : ∀ m, Simplify.walk (m + (p + 2)) []
        (.binary .and (.binary .notEq (.columnRef col) (.constant v) Option.none .boolean) acc Option.none .boolean) =
        .ok ([], .binary .and (.binary .notEq (.columnRef col) (.constant v) Option.none .boolean) acc Option.none .boolean) := by
      intro m
      have hE : Simplify.visit (m + p + 1) []
          (.binary .notEq (.columnRef col) (.constant v) Option.none .boolean) =
          .ok ([], .binary .notEq (.columnRef col) (.constant v) Option.none .boolean) := by
        have h0 := visit_ne_node (m + (p - 3)) col v
        rwa [show m + (p - 3) + 4 = m + p + 1 from by omega] at h0
      have hA : Simplify.visit (m + p + 1) [] acc = .ok ([], acc) := by
        have h0 := hv (m + 1)
        rwa [show m + 1 + p = m + p + 1 from by omega] at h0
      have h2 := walk_step _ acc .and (m + p) hE hA
      rwa [show m + p + 1 + 1 = m + (p + 2) from by omega] at h2
    have IH := chainVW_and col vs
      (.binary .and (.binary .notEq (.columnRef col) (.constant v) Option.none .boolean) acc Option.none .boolean)
      (p + 2) (by omega) hv2 hw2
    simp only [constInArgs, Simplify.buildInChain, DVList.length]
    constructor
    · intro m
      have h := IH.1 m
      rwa [show m + (2 * DVList.length vs + (p + 2)) = m + (2 * (DVList.length vs + 1) + p) from by omega] at h
    · intro m
      have h := IH.2 m
      rwa [show m + (2 * DVList.length vs + (p + 2)) = m + (2 * (DVList.length vs + 1) + p) from by omega] at h

/-- Every binary node of a `buildInChain` chain over a column and
constants carries type Boolean, whenever the accumulator does. -/
theorem allB_chain (op1 op2 : BinaryOperator) (col : ColumnRef) :
    (rest : DVList) → ∀ acc, allBinaryBoolean acc = true →
      allBinaryBoolean
        (Simplify.buildInChain op1 op2 (.columnRef col) acc (constInArgs rest)) = true
  | .nil => by
    intro acc h
    simpa [constInArgs, Simplify.buildInChain] using h
  | .cons v vs => by
    intro acc h
    simp only [constInArgs, Simplify.buildInChain]
    refine allB_chain op1 op2 col vs _ ?_
    have h1 : allBinaryBoolean (.columnRef col) = true := rfl
    have h2 : allBinaryBoolean (.constant v) = true := rfl
    simp [allBinaryBoolean, h, h1, h2]

/-- The three-valued value of an `Eq`/`Or` chain: the membership test
of the remaining constants, joined with the accumulator value. -/
theorem tvchain_or (cv : DataValue) (col : ColumnRef) : (rest : DVList) →
    ∀ (acc : ScalarExpression) (A : Option Bool),
      tvEval cv acc = Option.some A →
      tvEval cv (Simplify.buildInChain .eq .or (.columnRef col) acc (constInArgs rest)) =
        Option.some (tvOr (tvIn cv rest) A)
  | .nil => by
    intro acc A hA
    simp only [constInArgs, Simplify.buildInChain, tvIn]
    rw [hA]
    have h : ∀ a : Option Bool, tvOr (Option.some false) a = a := by decide
    rw [h]
  | .cons v vs => by
    intro acc A hA
    simp only [constInArgs, Simplify.buildInChain, tvIn]
    have hA2 : tvEval cv
        (.binary .or (.binary .eq (.columnRef col) (.constant v) Option.none .boolean) acc Option.none .boolean) =
        Option.some (tvOr (tvEq cv v) A) := by
      simp only [tvEval, hA]
    have h2 := tvchain_or cv col vs _ _ hA2
    rw [h2]
    have key : ∀ a b c : Option Bool, tvOr a (tvOr b c) = tvOr (tvOr b a) c := by
      decide
    rw [key]

/-- The three-valued value of a `NotEq`/`And` chain: the negated
membership test of the remaining constants, joined with the accumulator
value. -/
theorem tvchain_and (cv : DataValue) (col : ColumnRef) : (rest : DVList) →
    ∀ (acc : ScalarExpression) (A : Option Bool),
      tvEval cv acc = Option.some A →
      tvEval cv (Simplify.buildInChain .notEq .and (.columnRef col) acc (constInArgs rest)) =
        Option.some (tvAnd (tvNot (tvIn cv rest)) A)
  | .nil => by
    intro acc A hA
    simp only [constInArgs, Simplify.buildInChain, tvIn]
    rw [hA]
    have h : ∀ a : Option Bool, tvAnd (tvNot (Option.some false)) a = a := by
      decide
    rw [h]
  | .cons v vs => by
    intro acc A hA
    simp only [constInArgs, Simplify.buildInChain, tvIn]
    have hA2 : tvEval cv
        (.binary .and (.binary .notEq (.columnRef col) (.constant v) Option.none .boolean) acc Option.none .boolean) =
        Option.some (tvAnd (tvNot (tvEq cv v)) A) := by
      simp only [tvEval, hA]
    have h2 := tvchain_and cv col vs _ _ hA2
    rw [h2]
    have key : ∀ a b c : Option Bool,
        tvAnd (tvNot a) (tvAnd (tvNot b) c) = tvAnd (tvNot (tvOr b a)) c := by
      decide
    rw [key]

/-- C7 counterexample: the unrestricted claim fails. On `(c1 + 1) IN (5)`
the `In` arm builds the `Eq` comparison, but the walk that follows
visits the freshly built tree, replaces the value operand of the
arithmetic tested expression by `Empty` and leaks a `ReplaceBinary`
entry on the visitor stack, so the result is not the claimed chain that
compares the tested expression against the list element. -/
theorem C7_counterexample_in_expansion :
    Simplify.visit 8 []
        (.inExpr false C7badArg (.cons (.constant (.int32 5)) .nil)) =
      .ok ([Replace.binary C7replace],
        .binary .eq (.binary .plus (.columnRef C7col) .empty Option.none .integer)
          (.constant (.int32 5)) Option.none .boolean) ∧
    (ScalarExpression.binary .eq
        (.binary .plus (.columnRef C7col) .empty Option.none .integer)
        (.constant (.int32 5)) Option.none .boolean) ≠
      .binary .eq C7badArg (.constant (.int32 5)) Option.none .boolean :=
  ⟨rfl, by decide⟩

/-- C7: when the tested expression is a column reference and every list
element is a constant, `Simplify::visit` (with fuel linear in the list
length) rewrites `col IN (first, rest)` into exactly the chain
`buildInChain` grows — `Or` over `Eq` tests when not negated, `And` over
`NotEq` tests when negated — leaving the replace stack empty; every
binary node of the chain carries type Boolean, and for every column
value the chain evaluates, under the spec-modelled three-valued
semantics, to the value of the original membership test. -/
theorem C7_in_expansion (negated : Bool) (col : ColumnRef)
    (first : DataValue) (rest : DVList) (m : Nat) :
    Simplify.visit (m + (2 * DVList.length rest + 6)) []
        (.inExpr negated (.columnRef col) (.cons (.constant first) (constInArgs rest))) =
      .ok ([], inChainExpr negated col first rest) ∧
    allBinaryBoolean (inChainExpr negated col first rest) = true ∧
    ∀ cv, tvEval cv (inChainExpr negated col first rest) =
      Option.some (tvInExpr negated cv (.cons first rest)) := by
  cases negated with
  | false =>
    refine ⟨?_, ?_, ?_⟩
    · rw [show m + (2 * DVList.length rest + 6) = m + (2 * DVList.length rest + 4) + 1 + 1 from by omega]
      simp only [inChainExpr]
      simp only [Simplify.visit]
      simp
      have hv : ∀ m2, Simplify.visit (m2 + 4) []
          (.binary .eq (.columnRef col) (.constant first) Option.none .boolean) =
          .ok ([], .binary .eq (.columnRef col) (.constant first) Option.none .boolean) :=
        fun m2 => visit_eq_node m2 col first
      have hw : ∀ m2, Simplify.walk (m2 + 4) []
          (.binary .eq (.columnRef col) (.constant first) Option.none .boolean) =
          .ok ([], .binary .eq (.columnRef col) (.constant first) Option.none .boolean) := by
        intro m2
        have h0 := walk_eq_node (m2 + 1) col first
        rwa [show m2 + 1 + 3 = m2 + 4 from by omega] at h0
      have hC := (chainVW_or col rest
        (.binary .eq (.columnRef col) (.constant first) Option.none .boolean)
        4 (by omega) hv hw).2
      have h2 := hC (m + 1)
      rwa [show m + 1 + (2 * DVList.length rest + 4) = m + (2 * DVList.length rest + 4) + 1 from by omega] at h2
    · simp only [inChainExpr]
      exact allB_chain .eq .or col rest _ rfl
    · intro cv
      have h0 : tvEval cv
          (.binary .eq (.columnRef col) (.constant first) Option.none .boolean) =
          Option.some (tvEq cv first) := rfl
      have h1 := tvchain_or cv col rest _ _ h0
      simp only [inChainExpr]
      rw [h1]
      simp only [tvInExpr, tvIn]
      have hcomm : ∀ a b : Option Bool, tvOr a b = tvOr b a := by decide
      rw [hcomm]
  | true =>
    refine ⟨?_, ?_, ?_⟩
    · rw [show m + (2 * DVList.length rest + 6) = m + (2 * DVList.length rest + 4) + 1 + 1 from by omega]
      simp only [inChainExpr]
      simp only [Simplify.visit]
      simp
      have hv : ∀ m2, Simplify.visit (m2 + 4) []
          (.binary .notEq (.columnRef col) (.constant first) Option.none .boolean) =
          .ok ([], .binary .notEq (.columnRef col) (.constant first) Option.none .boolean) :=
        fun m2 => visit_ne_node m2 col first
      have hw : ∀ m2, Simplify.walk (m2 + 4) []
          (.binary .notEq (.columnRef col) (.constant first) Option.none .boolean) =
          .ok ([], .binary .notEq (.columnRef col) (.constant first) Option.none .boolean) := by
        intro m2
        have h0 := walk_ne_node (m2 + 1) col first
        rwa [show m2 + 1 + 3 = m2 + 4 from by omega] at h0
      have hC := (chainVW_and col rest
        (.binary .notEq (.columnRef col) (.constant first) Option.none .boolean)
        4 (by omega) hv hw).2
      have h2 := hC (m + 1)
      rwa [show m + 1 + (2 * DVList.length rest + 4) = m + (2 * DVList.length rest + 4) + 1 from by omega] at h2
    · simp only [inChainExpr]
      exact allB_chain .notEq .and col rest _ rfl
    · intro cv
      have h0 : tvEval cv
          (.binary .notEq (.columnRef col) (.constant first) Option.none .boolean) =
          Option.some (tvNot (tvEq cv first)) := rfl
      have h1 := tvchain_and cv col rest _ _ h0
      simp only [inChainExpr]
      rw [h1]
      simp only [tvInExpr, tvIn]
      have key : ∀ a b : Option Bool, tvAnd (tvNot a) (tvNot b) = tvNot (tvOr b a) := by
        decide
      rw [key]


end KiteSQL
